import Mathlib

/-!
Verification of the normalization-and-aggregation reporting engine of the
`elialabs-whatsapp` repository (files `app/bot/marketing_analysis.py` and the
sales-insight portion of `app/bot/context_builder.py`), as a shallow embedding
in Lean 4.

Modelling conventions:
* Python numbers (int/float) are modelled by `ℚ`; non-finite floats (NaN, ±inf)
  get their own constructor `Value.nonfinite` so that the `math.isfinite` check
  in `_to_float` can be rendered faithfully.  String-to-float parsing is
  modelled for the finite decimal grammar (optional sign, digits, optional
  fraction, optional exponent); the literals `inf`/`nan` and digit underscores
  accepted by CPython are outside the modelled fragment, and no claim exercises
  them.
* Python `datetime.datetime` values are `PyDateTime` (year, month, day, hour,
  minute, second, microsecond) compared lexicographically, exactly as CPython
  compares naive datetimes; `datetime.date` values are `PyDate`.
* `datetime.strptime` is modelled per CPython's `_strptime` regexes for the
  format directives actually used by the source (`%Y` exactly four digits,
  `%m`/`%d`/`%H`/`%M`/`%S` one or two digits in range, `%f` one to six digits),
  followed by the constructor's calendar validation.  In every format string
  the code uses, each numeric directive is followed by a non-digit literal or
  the end of the slice, so a two-digit out-of-range field cannot be rescued by
  regex backtracking; the model exploits this.
* `datetime.fromisoformat` is modelled for the grammar common to all supported
  CPython versions: `YYYY-MM-DD`, optionally followed by `T` or a space and
  `HH:MM[:SS[.fff|.ffffff]]`; timezone suffixes and the extended forms added
  in CPython 3.11 are outside the modelled fragment, and no claim exercises
  them.
* Exceptions escaping a function are modelled by `Except Unit`; errors that the
  source catches locally are folded into `Option` results as the source does.
-/

/- `Rat.add`, `Rat.mul`, `Rat.inv`, `Rat.sub` and `Rat.ofScientific` are
`@[irreducible]` upstream, which blocks kernel evaluation of the concrete
test inputs below; restore their reducibility for this file. -/
attribute [local semireducible] Rat.add Rat.mul Rat.inv Rat.sub Rat.ofScientific

/-! ## Calendar primitives -/

structure PyDate where
  y : Nat
  m : Nat
  d : Nat
deriving DecidableEq, Repr

structure PyDateTime where
  y : Nat
  m : Nat
  d : Nat
  hh : Nat
  mi : Nat
  ss : Nat
  us : Nat
deriving DecidableEq, Repr

/-- CPython compares naive datetimes field-by-field, lexicographically. -/
def PyDateTime.cmp (a b : PyDateTime) : Ordering :=
  ((((((compare a.y b.y).then (compare a.m b.m)).then (compare a.d b.d)).then
    (compare a.hh b.hh)).then (compare a.mi b.mi)).then (compare a.ss b.ss)).then
    (compare a.us b.us)

def pyDateTimeLe (a b : PyDateTime) : Bool :=
  a.cmp b ≠ Ordering.gt

def pyDateTimeMin (a b : PyDateTime) : PyDateTime :=
  if pyDateTimeLe a b then a else b

def pyDateTimeMax (a b : PyDateTime) : PyDateTime :=
  if pyDateTimeLe b a then a else b

/-- CPython compares `date` objects lexicographically on (year, month, day). -/
def PyDate.cmp (a b : PyDate) : Ordering :=
  ((compare a.y b.y).then (compare a.m b.m)).then (compare a.d b.d)

def PyDate.lt (a b : PyDate) : Bool :=
  a.cmp b = Ordering.lt

def PyDateTime.lt (a b : PyDateTime) : Bool :=
  a.cmp b = Ordering.lt

def isLeapYear (y : Nat) : Bool :=
  y % 4 = 0 && (y % 100 ≠ 0 || y % 400 = 0)

def daysInMonth (y m : Nat) : Nat :=
  if m = 2 then (if isLeapYear y then 29 else 28)
  else if m = 4 || m = 6 || m = 9 || m = 11 then 30
  else 31

/-- The `datetime` constructor's validation: year 1–9999, valid month/day. -/
def validYMD (y m d : Nat) : Bool :=
  1 ≤ y && y ≤ 9999 && 1 ≤ m && m ≤ 12 && 1 ≤ d && d ≤ daysInMonth y m

def validHMS (hh mi ss : Nat) : Bool :=
  hh ≤ 23 && mi ≤ 59 && ss ≤ 59

/-! ## Raw cell values

A `MetricRow` cell is null, a finite number (int or float), a non-finite
float, a bool, a string, a `date`, or a `datetime`. -/

inductive Value where
  | null : Value
  | num : ℚ → Value
  | nonfinite : Value
  | bool : Bool → Value
  | str : String → Value
  | date : PyDate → Value
  | datetime : PyDateTime → Value
deriving DecidableEq, Repr

/-- Python truthiness of the values a row cell can hold.  `date`/`datetime`
objects and non-finite floats (including NaN) are truthy. -/
def Value.truthy : Value → Bool
  | .null => false
  | .num q => q ≠ 0
  | .nonfinite => true
  | .bool b => b
  | .str s => s ≠ ""
  | .date _ => true
  | .datetime _ => true

/-- Python `str(value)` restricted to the fragment the claims exercise.  For finite
numbers the int/float distinction of CPython's repr is collapsed to a plain
decimal rendering; every claim that inspects a converted name uses string
cells, where `str` is the identity. -/
def pyStr : Value → String
  | .null => "None"
  | .num q => toString q
  | .nonfinite => "inf"
  | .bool b => if b then "True" else "False"
  | .str s => s
  | .date d => toString d.y ++ "-" ++ toString d.m ++ "-" ++ toString d.d
  | .datetime t => toString t.y ++ "-" ++ toString t.m ++ "-" ++ toString t.d

/-- A raw record: ordered field-name/value bindings with distinct keys
(a Python dict). -/
def Row := List (String × Value)

def rowGet (r : Row) (k : String) : Option Value :=
  (List.find? (fun p => p.1 == k) r).map (fun p => p.2)

/-! ## String helpers -/

def isPySpace (c : Char) : Bool :=
  c = ' ' || c = '\t' || c = '\n' || c = '\r'

/-- Python `str.strip()` on the whitespace fragment used by the claims. -/
def pyStrip (s : String) : String :=
  String.mk (((s.data.dropWhile isPySpace).reverse.dropWhile isPySpace).reverse)

/-- The cleaning step `value.replace("$", "").replace(",", "").replace("%", "").strip()`. -/
def cleanNumericText (s : String) : String :=
  pyStrip (String.mk (s.data.filter (fun c => !(c = '$' || c = ',' || c = '%'))))

def digitsToNat (cs : List Char) : Nat :=
  cs.foldl (fun acc c => 10 * acc + (c.toNat - '0'.toNat)) 0

def powTenZ (e : Int) : ℚ :=
  if 0 ≤ e then ((10 : ℚ) ^ e.toNat) else 1 / ((10 : ℚ) ^ (-e).toNat)

/-- The finite-decimal fragment of CPython's `float(string)` grammar:
`[+-]? ( digits [. digits*] | . digits ) [(e|E) [+-]? digits]`, entire string
consumed. -/
def parsePyFloat (s : String) : Option ℚ :=
  let cs := s.data
  let signAndRest : ℚ × List Char :=
    match cs with
    | '+' :: t => (1, t)
    | '-' :: t => (-1, t)
    | t => (1, t)
  let sgn := signAndRest.1
  let cs1 := signAndRest.2
  let ip := cs1.takeWhile Char.isDigit
  let rest1 := cs1.dropWhile Char.isDigit
  let fracAndRest : Option (List Char) × List Char :=
    match rest1 with
    | '.' :: t => (some (t.takeWhile Char.isDigit), t.dropWhile Char.isDigit)
    | t => (none, t)
  let fp := (fracAndRest.1).getD []
  let rest2 := fracAndRest.2
  if ip.isEmpty && fp.isEmpty then none
  else
    let mant : ℚ := (digitsToNat ip : ℚ) + (digitsToNat fp : ℚ) / (10 : ℚ) ^ fp.length
    match rest2 with
    | [] => some (sgn * mant)
    | e :: t =>
      if e = 'e' || e = 'E' then
        let esignAndRest : Int × List Char :=
          match t with
          | '+' :: u => (1, u)
          | '-' :: u => (-1, u)
          | u => (1, u)
        let ed := esignAndRest.2.takeWhile Char.isDigit
        let erest := esignAndRest.2.dropWhile Char.isDigit
        if ed.isEmpty || !erest.isEmpty then none
        else some (sgn * mant * powTenZ (esignAndRest.1 * (digitsToNat ed : Int)))
      else none

/-! ## Numeric coercion (`marketing_analysis._to_float` and friends) -/

/-- Model of `_to_float` (marketing_analysis.py:459-474): `None` for null, booleans,
non-finite numbers, non-str non-number objects, and strings that are empty or
unparsable after stripping `$`, `,`, `%` and outer whitespace. -/
def to_float : Value → Option ℚ
  | .null => none
  | .num q => some q
  | .nonfinite => none
  | .bool _ => none
  | .str s =>
    let cleaned := cleanNumericText s
    if cleaned = "" then none else parsePyFloat cleaned
  | .date _ => none
  | .datetime _ => none

/-- The spec's `to_number`: coercion of a single cell with default `0.0`. -/
def to_number (v : Value) : ℚ :=
  (to_float v).getD 0

/-- Model of `_extract_numeric` (marketing_analysis.py:408-414): first candidate key
whose cell is present, non-null, and coercible wins; default `0.0`. -/
def extract_numeric (r : Row) (keys : List String) : ℚ :=
  match keys with
  | [] => 0
  | k :: ks =>
    match rowGet r k with
    | none => extract_numeric r ks
    | some .null => extract_numeric r ks
    | some v =>
      match to_float v with
      | some q => q
      | none => extract_numeric r ks

/-- Model of `_get_first_non_empty` (marketing_analysis.py:426-431): first candidate
key whose cell is *truthy* wins, converted via `str`. -/
def get_first_non_empty (r : Row) (keys : List String) : Option String :=
  match keys with
  | [] => none
  | k :: ks =>
    match rowGet r k with
    | some v => if v.truthy then some (pyStr v) else get_first_non_empty r ks
    | none => get_first_non_empty r ks

/-! ## `strptime` field parsers

CPython's `_strptime` compiles each directive to a regex: `%Y` is exactly four
digits; `%m`, `%d`, `%H`, `%M`, `%S` are one or two digits constrained to the
directive's range (with a one-digit lower bound of 1 for `%m`/`%d` and 0 for
the time fields); `%f` is one to six digits.  In the format strings used by
the source every numeric directive is followed by a non-digit literal or the
end of the matched slice, so a two-digit group whose value is out of range
makes the whole match fail. -/

def parseYear4 : List Char → Option (Nat × List Char)
  | a :: b :: c :: d :: rest =>
    if a.isDigit && b.isDigit && c.isDigit && d.isDigit then
      some (digitsToNat [a, b, c, d], rest)
    else none
  | _ => none

def parseNum2 (lo hi oneLo : Nat) : List Char → Option (Nat × List Char)
  | [] => none
  | c1 :: rest =>
    if c1.isDigit then
      match rest with
      | c2 :: rest2 =>
        if c2.isDigit then
          let v := digitsToNat [c1, c2]
          if lo ≤ v && v ≤ hi then some (v, rest2) else none
        else
          let v := digitsToNat [c1]
          if oneLo ≤ v then some (v, rest) else none
      | [] =>
        let v := digitsToNat [c1]
        if oneLo ≤ v then some (v, []) else none
    else none

def parseLit (c : Char) : List Char → Option (List Char)
  | [] => none
  | x :: rest => if x = c then some rest else none

/-- Directive `%f`: one to six digits, right-padded to microseconds. -/
def parseFrac : List Char → Option (Nat × List Char)
  | cs =>
    let ds := (cs.takeWhile Char.isDigit).take 6
    let rest := cs.drop ds.length
    if ds.isEmpty then none
    else some (digitsToNat ds * 10 ^ (6 - ds.length), rest)

/-- Model of `strptime(s, "%Y-%m-%d")` (whole input consumed, constructor-validated). -/
def strptimeYmd (cs : List Char) : Option PyDate := do
  let (y, r1) ← parseYear4 cs
  let r2 ← parseLit '-' r1
  let (m, r3) ← parseNum2 1 12 1 r2
  let r4 ← parseLit '-' r3
  let (d, r5) ← parseNum2 1 31 1 r4
  if r5.isEmpty && validYMD y m d then some ⟨y, m, d⟩ else none

/-- Model of `strptime(s, "%Y/%m/%d")`. -/
def strptimeYmdSlash (cs : List Char) : Option PyDate := do
  let (y, r1) ← parseYear4 cs
  let r2 ← parseLit '/' r1
  let (m, r3) ← parseNum2 1 12 1 r2
  let r4 ← parseLit '/' r3
  let (d, r5) ← parseNum2 1 31 1 r4
  if r5.isEmpty && validYMD y m d then some ⟨y, m, d⟩ else none

/-- Model of `strptime(s, "%d-%m-%Y")`. -/
def strptimeDmy (cs : List Char) : Option PyDate := do
  let (d, r1) ← parseNum2 1 31 1 cs
  let r2 ← parseLit '-' r1
  let (m, r3) ← parseNum2 1 12 1 r2
  let r4 ← parseLit '-' r3
  let (y, r5) ← parseYear4 r4
  if r5.isEmpty && validYMD y m d then some ⟨y, m, d⟩ else none

/-- Model of `strptime(s, "%Y-%m")`. -/
def strptimeYm (cs : List Char) : Option PyDate := do
  let (y, r1) ← parseYear4 cs
  let r2 ← parseLit '-' r1
  let (m, r3) ← parseNum2 1 12 1 r2
  if r3.isEmpty && validYMD y m 1 then some ⟨y, m, 1⟩ else none

/-- Shared tail of the two datetime formats: `%H:%M:%S` after a separator. -/
def strptimeHMS (cs : List Char) : Option (Nat × Nat × Nat × List Char) := do
  let (hh, r1) ← parseNum2 0 23 0 cs
  let r2 ← parseLit ':' r1
  let (mi, r3) ← parseNum2 0 59 0 r2
  let r4 ← parseLit ':' r3
  let (ss, r5) ← parseNum2 0 59 0 r4
  some (hh, mi, ss, r5)

/-- Model of `strptime(s, "%Y-%m-%d<sep>%H:%M:%S")` with `sep` a space or `T`. -/
def strptimeYmdHMS (sep : Char) (cs : List Char) : Option PyDateTime := do
  let (y, r1) ← parseYear4 cs
  let r2 ← parseLit '-' r1
  let (m, r3) ← parseNum2 1 12 1 r2
  let r4 ← parseLit '-' r3
  let (d, r5) ← parseNum2 1 31 1 r4
  let r6 ← parseLit sep r5
  let (hh, mi, ss, r7) ← strptimeHMS r6
  if r7.isEmpty && validYMD y m d then some ⟨y, m, d, hh, mi, ss, 0⟩ else none

/-- Model of `strptime(s, "%Y-%m-%dT%H:%M:%S.%f")`. -/
def strptimeYmdHMSf (cs : List Char) : Option PyDateTime := do
  let (y, r1) ← parseYear4 cs
  let r2 ← parseLit '-' r1
  let (m, r3) ← parseNum2 1 12 1 r2
  let r4 ← parseLit '-' r3
  let (d, r5) ← parseNum2 1 31 1 r4
  let r6 ← parseLit 'T' r5
  let (hh, mi, ss, r7) ← strptimeHMS r6
  let r8 ← parseLit '.' r7
  let (us, r9) ← parseFrac r8
  if r9.isEmpty && validYMD y m d then some ⟨y, m, d, hh, mi, ss, us⟩ else none

/-! ## `datetime.fromisoformat` (version-stable core grammar) -/

def parseDigit2 : List Char → Option (Nat × List Char)
  | a :: b :: rest =>
    if a.isDigit && b.isDigit then some (digitsToNat [a, b], rest) else none
  | _ => none

def isoTimePart : List Char → Option (Nat × Nat × Nat × Nat)
  | cs => do
    let (hh, r1) ← parseDigit2 cs
    let r2 ← parseLit ':' r1
    let (mi, r3) ← parseDigit2 r2
    match r3 with
    | [] => if validHMS hh mi 0 then some (hh, mi, 0, 0) else none
    | ':' :: r4 => do
      let (ss, r5) ← parseDigit2 r4
      match r5 with
      | [] => if validHMS hh mi ss then some (hh, mi, ss, 0) else none
      | '.' :: r6 =>
        let ds := r6.takeWhile Char.isDigit
        if (ds.length = 3 || ds.length = 6) && (r6.drop ds.length).isEmpty
            && validHMS hh mi ss then
          some (hh, mi, ss, digitsToNat ds * 10 ^ (6 - ds.length))
        else none
      | _ => none
    | _ => none

/-- Model of `datetime.fromisoformat` on the grammar accepted by every supported
CPython version: `YYYY-MM-DD`, optionally followed by `T` or a space and
`HH:MM[:SS[.fff|.ffffff]]`.  Timezone suffixes and CPython-3.11 extended
forms are outside the modelled fragment. -/
def fromisoformat (cs : List Char) : Option PyDateTime := do
  let (y, r1) ← parseYear4 cs
  let r2 ← parseLit '-' r1
  let (m, r3) ← parseDigit2 r2
  let r4 ← parseLit '-' r3
  let (d, r5) ← parseDigit2 r4
  if !validYMD y m d then none
  else
    match r5 with
    | [] => some ⟨y, m, d, 0, 0, 0, 0⟩
    | sep :: r6 =>
      if sep = 'T' || sep = ' ' then do
        let (hh, mi, ss, us) ← isoTimePart r6
        some ⟨y, m, d, hh, mi, ss, us⟩
      else none

/-! ## `_parse_date` (marketing_analysis.py:434-456)

Each strptime attempt runs on the *prefix* `text[:len(fmt)]` of the input,
where `len(fmt)` is the length of the format string itself (8, 17, 17, 20);
then `datetime.fromisoformat` runs on the whole text.  A plain `date` value
is neither a `datetime` nor a `str`, so it yields `None`; a `datetime` is
returned unchanged (no truncation). -/

def parse_date : Value → Option PyDateTime
  | .datetime t => some t
  | .str s =>
    let text := pyStrip s
    if text = "" then none
    else
      let cs := text.data
      match strptimeYmd (cs.take 8) with
      | some d => some ⟨d.y, d.m, d.d, 0, 0, 0, 0⟩
      | none =>
        match strptimeYmdHMS ' ' (cs.take 17) with
        | some t => some t
        | none =>
          match strptimeYmdHMS 'T' (cs.take 17) with
          | some t => some t
          | none =>
            match strptimeYmdHMSf (cs.take 20) with
            | some t => some t
            | none => fromisoformat cs
  | _ => none

/-- Model of `_extract_date` (marketing_analysis.py:417-423): first candidate key whose
cell is truthy *and* parses wins. -/
def extract_date (r : Row) (keys : List String) : Option PyDateTime :=
  match keys with
  | [] => none
  | k :: ks =>
    match rowGet r k with
    | some v =>
      if v.truthy then
        match parse_date v with
        | some t => some t
        | none => extract_date r ks
      else extract_date r ks
    | none => extract_date r ks

/-! ## `_parse_month_value` (context_builder.py:345-366)

`datetime` is a subclass of `date`, so the `isinstance(value, date)` branch
also captures datetimes: CPython returns `value.replace(day=1)` — still a
*datetime*, with its time of day preserved and only the day forced to 1 —
while plain dates and string-parsed values come back as plain `date`
objects.  A month value is therefore one of two CPython types, and comparing
across the two raises `TypeError`; `MonthValue` keeps the distinction.  The
three full-string formats are tried on the stripped value; the `%Y-%m`
fallback runs on `value[:7]`, so any string whose first seven characters
fully match `%Y-%m` is accepted with trailing characters ignored. -/

inductive MonthValue where
  | d : PyDate → MonthValue
  | dt : PyDateTime → MonthValue
deriving DecidableEq, Repr

def MonthValue.isDate : MonthValue → Bool
  | .d _ => true
  | .dt _ => false

/-- CPython's `<` on two month values: defined within one `datetime` type,
`TypeError` across the two. -/
def monthLt : MonthValue → MonthValue → Except Unit Bool
  | .d a, .d b => Except.ok (a.lt b)
  | .dt a, .dt b => Except.ok (a.lt b)
  | _, _ => Except.error ()

def parse_month_value : Value → Option MonthValue
  | .null => none
  | .date d => some (.d ⟨d.y, d.m, 1⟩)
  | .datetime t => some (.dt ⟨t.y, t.m, 1, t.hh, t.mi, t.ss, t.us⟩)
  | .str s =>
    let v := (pyStrip s).data
    match strptimeYmd v with
    | some d => some (.d ⟨d.y, d.m, 1⟩)
    | none =>
      match strptimeYmdSlash v with
      | some d => some (.d ⟨d.y, d.m, 1⟩)
      | none =>
        match strptimeDmy v with
        | some d => some (.d ⟨d.y, d.m, 1⟩)
        | none =>
          match strptimeYm (v.take 7) with
          | some d => some (.d d)
          | none => none
  | _ => none

/-! ## Scope configuration tables (marketing_analysis.py:35-175) -/

structure ScopeConfig where
  label : String
  singular : String
  group_keys : List String
  id_keys : List String
deriving DecidableEq, Repr

def campaignsConfig : ScopeConfig :=
  { label := "campañas"
    singular := "campaña"
    group_keys := ["campaign_name", "name_campaign", "campaign", "campaign_nombre",
      "nombre_campana", "nombre_campaña", "campaign_title", "titulo_campana"]
    id_keys := ["campaign_id", "id_campaign", "id_campana", "id_campaña",
      "campaignid", "campana_id"] }

def adsetsConfig : ScopeConfig :=
  { label := "conjuntos de anuncios"
    singular := "conjunto de anuncios"
    group_keys := ["adset_name", "ad_set_name", "name_adset", "adset", "conjunto",
      "conjunto_de_anuncios", "nombre_conjunto", "nombre_conjunto_de_anuncios"]
    id_keys := ["adset_id", "id_adset", "conjunto_id", "conjunto_anuncios_id",
      "adsetid"] }

def adsConfig : ScopeConfig :=
  { label := "anuncios"
    singular := "anuncio"
    group_keys := ["ad_name", "name_ad", "ad", "nombre_anuncio", "ad_title",
      "titulo_anuncio"]
    id_keys := ["ad_id", "id_ad", "id_anuncio", "anuncio_id", "adid",
      "creative_id"] }

def SCOPE_CONFIG : List (String × ScopeConfig) :=
  [("campaigns", campaignsConfig), ("adsets", adsetsConfig), ("ads", adsConfig)]

def SPEND_KEYS : List String :=
  ["amount_spent", "spend", "gasto", "gasto_total", "inversion", "investment",
   "inversion_total", "costo", "cost", "coste", "monto_gastado", "spent"]

def REVENUE_KEYS : List String :=
  ["revenue", "ingresos", "income", "ventas", "total_revenue", "return",
   "retorno", "valor", "value", "compras_valor"]

def CONVERSION_KEYS : List String :=
  ["conversions", "conversiones", "purchases", "compras", "sales",
   "ventas_realizadas", "resultados", "results", "leads"]

def CPC_KEYS : List String :=
  ["cpc", "cost_per_click", "costo_por_click", "costo_por_clic",
   "coste_por_clic", "coste_por_click"]

def CLICKS_KEYS : List String :=
  ["clicks", "link_clicks", "click", "clics", "clics_enlace", "clicks_enlace"]

def DATE_START_KEYS : List String :=
  ["start_date", "fecha_inicio", "period_start", "inicio", "fecha", "date",
   "created_at"]

def DATE_END_KEYS : List String :=
  ["end_date", "fecha_fin", "period_end", "fin", "updated_at"]

/-! ## Aggregation (`_aggregate_marketing_data`, marketing_analysis.py:248-331) -/

/-- Model of `_safe_div` (marketing_analysis.py:494-497): `None` when the denominator
is falsy (zero); over `ℚ` the two guards `denominator` and
`denominator != 0` coincide. -/
def safe_div (numerator denominator : ℚ) : Option ℚ :=
  if denominator ≠ 0 then some (numerator / denominator) else none

structure EntityAggregate where
  name : String
  ids : List String
  spend : ℚ
  revenue : ℚ
  conversions : ℚ
  clicks : ℚ
  cpc_samples : List ℚ
  roi : Option ℚ
  cpc : Option ℚ
deriving DecidableEq, Repr

structure OverallTotals where
  total_records : Nat
  spend : ℚ
  revenue : ℚ
  conversions : ℚ
  clicks : ℚ
  cpc_samples : List ℚ
  start_date : Option PyDateTime
  end_date : Option PyDateTime
  roi : Option ℚ
  cpc : Option ℚ
deriving DecidableEq, Repr

def freshEntity (key : String) : EntityAggregate :=
  { name := key, ids := [], spend := 0, revenue := 0, conversions := 0,
    clicks := 0, cpc_samples := [], roi := none, cpc := none }

/-- Set insertion `entry["ids"].add(str(entity_id))`: the `ids` field models the Python set
as its insertion-ordered list of distinct members (normalized by `sorted` in
the post-pass). -/
def addId (ids : List String) (i : String) : List String :=
  if i ∈ ids then ids else ids ++ [i]

def addMetrics (e : EntityAggregate) (spend revenue conversions clicks cpc_value : ℚ) :
    EntityAggregate :=
  { e with
    spend := e.spend + spend
    revenue := e.revenue + revenue
    conversions := e.conversions + conversions
    clicks := e.clicks + clicks
    cpc_samples := if cpc_value ≠ 0 then e.cpc_samples ++ [cpc_value] else e.cpc_samples }

/-- Model of `_min_date` (marketing_analysis.py:516-519). -/
def min_date (current candidate : Option PyDateTime) : Option PyDateTime :=
  match current, candidate with
  | some c, some k => some (pyDateTimeMin c k)
  | _, _ => candidate.orElse (fun _ => current)

/-- Model of `_max_date` (marketing_analysis.py:522-525). -/
def max_date (current candidate : Option PyDateTime) : Option PyDateTime :=
  match current, candidate with
  | some c, some k => some (pyDateTimeMax c k)
  | _, _ => candidate.orElse (fun _ => current)

/-- Update the entity list at `key`, inserting a fresh bucket at the end on
first sight (`aggregates.setdefault`; a Python dict iterates in insertion
order). -/
def updateAt (aggs : List EntityAggregate) (key : String)
    (f : EntityAggregate → EntityAggregate) : List EntityAggregate :=
  match aggs with
  | [] => [f (freshEntity key)]
  | e :: rest =>
    if e.name = key then f e :: rest else e :: updateAt rest key f

/-- One iteration of the aggregation loop.  A row whose grouping name does not
resolve is skipped entirely (`continue` fires before any overall-total
accumulation). -/
def aggStep (config : ScopeConfig)
    (st : List EntityAggregate × OverallTotals) (row : Row) :
    List EntityAggregate × OverallTotals :=
  match get_first_non_empty row config.group_keys with
  | none => st
  | some name =>
    let key := pyStrip name
    let spend := extract_numeric row SPEND_KEYS
    let revenue := extract_numeric row REVENUE_KEYS
    let conversions := extract_numeric row CONVERSION_KEYS
    let clicks := extract_numeric row CLICKS_KEYS
    let cpc_value := extract_numeric row CPC_KEYS
    let aggs := updateAt st.1 key (fun e =>
      let e := match get_first_non_empty row config.id_keys with
        | some i => if i ≠ "" then { e with ids := addId e.ids i } else e
        | none => e
      addMetrics e spend revenue conversions clicks cpc_value)
    let o := st.2
    let o :=
      { o with
        spend := o.spend + spend
        revenue := o.revenue + revenue
        conversions := o.conversions + conversions
        clicks := o.clicks + clicks
        cpc_samples := if cpc_value ≠ 0 then o.cpc_samples ++ [cpc_value]
          else o.cpc_samples
        start_date := min_date o.start_date (extract_date row DATE_START_KEYS)
        end_date := max_date o.end_date (extract_date row DATE_END_KEYS) }
    (aggs, o)

def sortStrings (l : List String) : List String :=
  List.insertionSort (fun a b => a ≤ b) l

/-- The post-pass over one entity (marketing_analysis.py:313-321). -/
def entityPostPass (e : EntityAggregate) : EntityAggregate :=
  { e with
    roi := safe_div e.revenue e.spend
    cpc :=
      if e.clicks > 0 then safe_div e.spend e.clicks
      else if e.cpc_samples ≠ [] then
        some (e.cpc_samples.sum / (e.cpc_samples.length : ℚ))
      else none
    ids := sortStrings e.ids }

/-- The post-pass over the overall totals (marketing_analysis.py:323-329). -/
def overallPostPass (o : OverallTotals) : OverallTotals :=
  { o with
    roi := safe_div o.revenue o.spend
    cpc :=
      if o.clicks > 0 then safe_div o.spend o.clicks
      else if o.cpc_samples ≠ [] then
        some (o.cpc_samples.sum / (o.cpc_samples.length : ℚ))
      else none }

def initialOverall (data : List Row) : OverallTotals :=
  { total_records := data.length, spend := 0, revenue := 0, conversions := 0,
    clicks := 0, cpc_samples := [], start_date := none, end_date := none,
    roi := none, cpc := none }

/-- Model of `_aggregate_marketing_data` (marketing_analysis.py:248-331): the loop over
the rows followed by the two post-passes.  The entity list is returned in
dict insertion order. -/
def aggregate_marketing_data (data : List Row) (config : ScopeConfig) :
    List EntityAggregate × OverallTotals :=
  let st := data.foldl (aggStep config) ([], initialOverall data)
  (st.1.map entityPostPass, overallPostPass st.2)

/-! ## Number and date formatting

Python format specs round the value to the requested number of decimals with
round-half-to-even; the model states this decimal rounding over `ℚ` (the
binary-float representation error of CPython is outside the modelled
fragment; no claim exercises a value where the two differ). -/

def roundHalfEven (q : ℚ) : ℤ :=
  let f : ℤ := ⌊q⌋
  let r : ℚ := q - (f : ℚ)
  if r < 1 / 2 then f
  else if r > 1 / 2 then f + 1
  else if Even f then f else f + 1

/-- Decimal digits of a natural number, most significant first. -/
def natDigitsStr (n : Nat) : String :=
  String.mk ((Nat.toDigits 10 n))

/-- Thousands grouping of a digit string, as in `f"{n:,}"`. -/
def groupThousands (s : String) : String :=
  let rec go : List Char → List Char
    | [] => []
    | a :: b :: c :: d :: rest => a :: b :: c :: ',' :: go (d :: rest)
    | l => l
  String.mk ((go s.data.reverse).reverse)

def padLeftZeros (w : Nat) (s : String) : String :=
  String.mk (List.replicate (w - s.length) '0') ++ s

/-- Format spec `f"{q:.2f}"`. -/
def formatFixed2 (q : ℚ) : String :=
  let cents := roundHalfEven (|q| * 100)
  let sign := if q < 0 then "-" else ""
  sign ++ natDigitsStr (cents.toNat / 100) ++ "." ++
    padLeftZeros 2 (natDigitsStr (cents.toNat % 100))

/-- Format spec `f"{q:,.2f}"`. -/
def formatFixed2Grouped (q : ℚ) : String :=
  let cents := roundHalfEven (|q| * 100)
  let sign := if q < 0 then "-" else ""
  sign ++ groupThousands (natDigitsStr (cents.toNat / 100)) ++ "." ++
    padLeftZeros 2 (natDigitsStr (cents.toNat % 100))

/-- Format spec `f"{n:,}"` for an integer. -/
def formatIntGrouped (n : ℤ) : String :=
  (if n < 0 then "-" else "") ++ groupThousands (natDigitsStr n.natAbs)

/-- Model of `_format_currency` (marketing_analysis.py:477-483). -/
def format_currency (value : Option ℚ) : String :=
  match value with
  | none => "$0.00"
  | some q => "$" ++ formatFixed2Grouped q

/-- Model of `_format_number` (marketing_analysis.py:486-491). -/
def format_number (value : ℚ) : String :=
  if |value - (roundHalfEven value : ℚ)| < 1 / 1000000 then
    formatIntGrouped (roundHalfEven value)
  else formatFixed2Grouped value

/-- Rendering `str(t.date())`: ISO `YYYY-MM-DD`, zero-padded. -/
def dateStr (t : PyDateTime) : String :=
  padLeftZeros 4 (natDigitsStr t.y) ++ "-" ++ padLeftZeros 2 (natDigitsStr t.m)
    ++ "-" ++ padLeftZeros 2 (natDigitsStr t.d)

/-- Model of `_format_date_range` (marketing_analysis.py:500-507). -/
def format_date_range (start stop : Option PyDateTime) : String :=
  match start, stop with
  | some s, some e => "(" ++ dateStr s ++ " – " ++ dateStr e ++ ")"
  | some s, none => "(desde " ++ dateStr s ++ ")"
  | none, some e => "(hasta " ++ dateStr e ++ ")"
  | none, none => ""

/-- Python `str.capitalize()`: first character upper-cased, the rest lower-cased
(ASCII fragment; the labels' non-ASCII characters are already lower case). -/
def pyCapitalize (s : String) : String :=
  match s.data with
  | [] => ""
  | c :: rest => String.mk (c.toUpper :: rest.map Char.toLower)

/-! ## Report renderer (marketing_analysis.py:334-405) -/

/-- The text `f"ROAS {roas:.2f}x" if roas and roas > 0 else "ROAS n/d"`. -/
def roasText (roi : Option ℚ) : String :=
  match roi with
  | some r => if r > 0 then "ROAS " ++ formatFixed2 r ++ "x" else "ROAS n/d"
  | none => "ROAS n/d"

/-- The text `_format_currency(cpc) if cpc and cpc > 0 else "n/d"`. -/
def cpcText (cpc : Option ℚ) : String :=
  match cpc with
  | some c => if c > 0 then format_currency (some c) else "n/d"
  | none => "n/d"

def build_header (config : ScopeConfig) (overall : OverallTotals) : String :=
  let label := pyCapitalize config.label
  let dr := format_date_range overall.start_date overall.end_date
  if dr ≠ "" then "📊 Análisis de " ++ label ++ " " ++ dr
  else "📊 Análisis de " ++ label

def build_summary_lines (overall : OverallTotals) : String :=
  let spend := format_currency (some overall.spend)
  let revenue := format_currency (some overall.revenue)
  let conversions_text := format_number overall.conversions
  let roas_text := roasText overall.roi
  let cpc_text := cpcText overall.cpc
  String.intercalate ("\n")
    ["🔎 Resumen rápido:",
     "- Inversión total: " ++ spend,
     "- Ingresos generados: " ++ revenue ++ " (" ++ roas_text ++ ")",
     "- Conversiones registradas: " ++ conversions_text,
     "- CPC promedio: " ++ cpc_text]

def build_standout (best : EntityAggregate) (config : ScopeConfig) : String :=
  let label := pyCapitalize config.singular
  let ids := String.intercalate (", ") best.ids
  let id_text := if ids ≠ "" then " | IDs: " ++ ids else ""
  "🥇 " ++ label ++ " destacada: *" ++ best.name ++ "*" ++ " — " ++
    format_currency (some best.revenue) ++ " (" ++ roasText best.roi ++ "), " ++
    format_number best.conversions ++ " conv., CPC " ++ cpcText best.cpc ++
    ", inversión " ++ format_currency (some best.spend) ++ id_text

def topEntityLine (idx : Nat) (entry : EntityAggregate) : String :=
  natDigitsStr idx ++ ". *" ++ entry.name ++ "* — " ++
    format_currency (some entry.revenue) ++ " | conv. " ++
    format_number entry.conversions ++ " | " ++ roasText entry.roi ++
    " | CPC " ++ cpcText entry.cpc ++ " | gasto " ++
    format_currency (some entry.spend)

def build_top_list (top_entities : List EntityAggregate) (config : ScopeConfig) :
    String :=
  let header := "📌 Top " ++ natDigitsStr top_entities.length ++ " " ++
    config.label ++ ":"
  let numbered := (top_entities.enum).map (fun p => topEntityLine (p.1 + 1) p.2)
  String.intercalate ("\n") (header :: numbered)

def build_coverage (overall : OverallTotals) : Option String :=
  if overall.total_records ≤ 0 then none
  else
    let dr := format_date_range overall.start_date overall.end_date
    let detail := "Se analizaron " ++ natDigitsStr overall.total_records ++
      " registros de la vista."
    if dr ≠ "" then
      some (detail ++ " Cobertura: " ++
        String.mk (dr.data.filter (fun c => !(c = '(' || c = ')'))) ++ ".")
    else some detail

/-! ## The ranking sort (marketing_analysis.py:217-228)

`sorted(..., key=..., reverse=True)` sorts stably, descending, on the key
tuple `(revenue, conversions, roi)` — `entry.get("roi", 0.0)` returns the
stored `roi`, which the post-pass always sets (possibly to `None`), so the
`0.0` default is dead.  CPython compares tuples element-by-element with `==`
and then `<`; comparing `None` with a float raises `TypeError`, which the
source does not catch.  The sort is modelled as a stable insertion sort that
propagates the comparison failure; it agrees with CPython's sort whenever all
needed comparisons are defined, and on any two-element list. -/

def cmpRankKey (a b : EntityAggregate) : Except Unit Ordering :=
  if a.revenue ≠ b.revenue then Except.ok (compare a.revenue b.revenue)
  else if a.conversions ≠ b.conversions then
    Except.ok (compare a.conversions b.conversions)
  else
    match a.roi, b.roi with
    | some x, some y => Except.ok (compare x y)
    | none, none => Except.ok Ordering.eq
    | _, _ => Except.error ()

def insertDesc (x : EntityAggregate) :
    List EntityAggregate → Except Unit (List EntityAggregate)
  | [] => Except.ok [x]
  | y :: ys => do
    let c ← cmpRankKey x y
    if c ≠ Ordering.lt then Except.ok (x :: y :: ys)
    else do
      let r ← insertDesc x ys
      Except.ok (y :: r)

def sortEntitiesDesc : List EntityAggregate → Except Unit (List EntityAggregate)
  | [] => Except.ok []
  | x :: xs => do
    let r ← sortEntitiesDesc xs
    insertDesc x r

/-! ## `build_marketing_report` (marketing_analysis.py:199-245) -/

def unrecognizedScopeMessage : String :=
  "⚠️ No pude identificar el nivel de análisis solicitado. " ++
  "Indica si prefieres campañas, conjuntos de anuncios o anuncios."

def noDataMessage (config : ScopeConfig) : String :=
  "⚠️ No encontré datos para " ++ config.label ++
  " en el período disponible. " ++
  "Verifica que la vista incluya columnas con nombres y métricas."

def closingPrompt : String :=
  "¿Quieres revisar otro nivel de detalle? Puedes pedir *campañas*, " ++
  "*conjuntos de anuncios* o *anuncios*."

def build_marketing_report (data : List Row) (scope : String) :
    Except Unit String :=
  match List.lookup scope SCOPE_CONFIG with
  | none => Except.ok unrecognizedScopeMessage
  | some config =>
    let st := aggregate_marketing_data data config
    let aggregates := st.1
    let overall := st.2
    if aggregates = [] then Except.ok (noDataMessage config)
    else do
      let sorted_entities ← sortEntitiesDesc aggregates
      match sorted_entities with
      | [] => Except.error ()
      | best_entity :: _ =>
        let top_entities := sorted_entities.take (min 3 sorted_entities.length)
        let sections := [build_header config overall,
          build_summary_lines overall,
          build_standout best_entity config,
          build_top_list top_entities config]
        let sections := match build_coverage overall with
          | some c => sections ++ [c]
          | none => sections
        let sections := sections ++ [closingPrompt]
        Except.ok (String.intercalate ("\n\n") (sections.filter (fun s => s ≠ "")))

/-! ## Sales insights (`context_builder.py:250-342`) -/

/-- Model of `_pick_value` (context_builder.py:338-342) without its default: the first
candidate key whose cell is present and not null. -/
def pick_value (r : Row) (candidates : List String) : Option Value :=
  match candidates with
  | [] => none
  | k :: ks =>
    match rowGet r k with
    | some .null => pick_value r ks
    | some v => some v
    | none => pick_value r ks

/-- Model of `_safe_float` (context_builder.py:322-328): `float(value)` with every
`TypeError`/`ValueError` mapped to `0.0`.  Unlike `_to_float`, booleans
convert (`float(True) == 1.0`) and strings are parsed without stripping
currency symbols.  A non-finite float input would be returned unchanged by
CPython; that propagation is outside the modelled fragment (no claim
exercises it), so the model folds it to 0. -/
def safe_float : Value → ℚ
  | .null => 0
  | .num q => q
  | .nonfinite => 0
  | .bool b => if b then 1 else 0
  | .str s => (parsePyFloat (pyStrip s)).getD 0
  | .date _ => 0
  | .datetime _ => 0

def SALES_MONTH_KEYS : List String := ["month", "mes", "fecha", "dia"]

def SALES_REVENUE_KEYS : List String :=
  ["revenue", "ingresos", "precio_venta", "precio_total", "revenue_bruto"]

def SALES_COSTS_KEYS : List String := ["costs", "costo", "gastos_totales", "costos"]

def SALES_PROFIT_KEYS : List String := ["profit", "utilidad", "ganancia"]

def SALES_MARGIN_KEYS : List String := ["margin_pct", "margen_pct", "margen"]

def salesMonth (r : Row) : Option MonthValue :=
  parse_month_value ((pick_value r SALES_MONTH_KEYS).getD Value.null)

def salesRevenue (r : Row) : ℚ :=
  safe_float ((pick_value r SALES_REVENUE_KEYS).getD (Value.num 0))

def salesCosts (r : Row) : ℚ :=
  safe_float ((pick_value r SALES_COSTS_KEYS).getD (Value.num 0))

def salesProfit (r : Row) : ℚ :=
  safe_float ((pick_value r SALES_PROFIT_KEYS).getD
    (Value.num (salesRevenue r - salesCosts r)))

/-- The `margin_pct` computation (context_builder.py:281-287): a directly
reported margin wins; otherwise `profit / revenue * 100` when revenue is
truthy (non-zero); otherwise undefined. -/
def salesMargin (r : Row) : Option ℚ :=
  match pick_value r SALES_MARGIN_KEYS with
  | some v => some (safe_float v)
  | none =>
    if salesRevenue r ≠ 0 then some (salesProfit r / salesRevenue r * 100)
    else none

structure SalesState where
  best_month : Option MonthValue
  earliest_month : Option MonthValue
  best_revenue : ℚ
  best_margin : Option ℚ
deriving DecidableEq, Repr

def initialSalesState : SalesState :=
  { best_month := none, earliest_month := none, best_revenue := -1,
    best_margin := none }

/-- The short-circuit test `earliest_month is None or month_date <
earliest_month` followed by the assignment (context_builder.py:290-291):
the comparison runs only when an earliest month exists, and raises
(`TypeError`) when the two month values have different `datetime` types. -/
def stepEarliest (st : SalesState) (m : MonthValue) :
    Except Unit (Option MonthValue) :=
  match st.earliest_month with
  | none => Except.ok (some m)
  | some e => do
    let isLt ← monthLt m e
    Except.ok (if isLt then some m else some e)

/-- One iteration of the `_build_sales_insights` loop
(context_builder.py:256-296).  Only rows with a resolvable month date
participate; `revenue` is never `None` (it is `_safe_float` output), so the
`revenue is not None` guard is vacuous.  A `TypeError` from the
earliest-month comparison propagates out of the loop. -/
def salesStep (st : SalesState) (r : Row) : Except Unit SalesState :=
  match salesMonth r with
  | none => Except.ok st
  | some month_date => do
    let earliest ← stepEarliest st month_date
    let st := { st with earliest_month := earliest }
    if salesRevenue r > st.best_revenue then
      Except.ok { st with
        best_revenue := salesRevenue r
        best_month := some month_date
        best_margin := salesMargin r }
    else Except.ok st

def salesFoldAux : SalesState → List Row → Except Unit SalesState
  | st, [] => Except.ok st
  | st, r :: rest => do
    let st2 ← salesStep st r
    salesFoldAux st2 rest

def salesFold (records : List Row) : Except Unit SalesState :=
  salesFoldAux initialSalesState records

/-- Model of `_format_month` (context_builder.py:389-393):
`strftime("%Y-%m")` works identically on both `datetime` types. -/
def format_month : MonthValue → String
  | .d x => padLeftZeros 4 (natDigitsStr x.y) ++ "-" ++ padLeftZeros 2 (natDigitsStr x.m)
  | .dt x => padLeftZeros 4 (natDigitsStr x.y) ++ "-" ++ padLeftZeros 2 (natDigitsStr x.m)

/-- Model of `_format_currency` of context_builder.py:331-335:
`"$" + f"{value:,.0f}".replace(",", ".")`. -/
def context_format_currency (value : ℚ) : String :=
  let n := roundHalfEven |value|
  let sign := if value < 0 then "-" else ""
  "$" ++ sign ++
    String.mk ((groupThousands (natDigitsStr n.toNat)).data.map
      (fun c => if c = ',' then '.' else c))

/-- Format spec `f"{m:.1f}"`. -/
def formatFixed1 (q : ℚ) : String :=
  let tenths := roundHalfEven (|q| * 10)
  let sign := if q < 0 then "-" else ""
  sign ++ natDigitsStr (tenths.toNat / 10) ++ "." ++ natDigitsStr (tenths.toNat % 10)

def bestMonthLine (best_month : MonthValue) (best_revenue : ℚ)
    (best_margin : Option ℚ) : String :=
  let month_label := format_month best_month
  match best_margin with
  | some m =>
    "🏆 Mejor mes histórico: " ++ month_label ++ " con ingresos de " ++
      context_format_currency best_revenue ++ " y margen " ++ formatFixed1 m ++ "%."
  | none =>
    "🏆 Mejor mes histórico: " ++ month_label ++ " con ingresos de " ++
      context_format_currency best_revenue ++ "."

def earliestLine (earliest_month : MonthValue) : String :=
  "📅 Primer registro disponible: " ++ format_month earliest_month ++ "."

/-- Model of `_build_sales_insights` (context_builder.py:250-319): an
uncaught `TypeError` from the loop propagates to the caller. -/
def build_sales_insights (records : List Row) : Except Unit (Option String) := do
  let st ← salesFold records
  let lines :=
    (match st.best_month with
     | some bm => [bestMonthLine bm st.best_revenue st.best_margin]
     | none => []) ++
    (match st.earliest_month with
     | some em => [earliestLine em]
     | none => [])
  if lines = [] then Except.ok none
  else Except.ok (some ("INSIGHTS HISTÓRICOS:\n" ++
    String.intercalate ("\n") (lines.map (fun l => "- " ++ l))))

/-! ## Definitions written from the claims' words (for comparison)

These do not come from the source; they render the claims' own phrasing so
that counterexamples and refinements can be stated against them. -/

/-- Claim wording (§4.1): the first value present in the row and not null. -/
def firstTruthyValue (r : Row) (keys : List String) : Option Value :=
  match keys with
  | [] => none
  | k :: ks =>
    match rowGet r k with
    | some v => if v.truthy then some v else firstTruthyValue r ks
    | none => firstTruthyValue r ks

def allDigits (cs : List Char) : Bool :=
  cs.all Char.isDigit

/-- Claim wording (C5): the time-of-day tail of an ISO 8601 string with
optional seconds and fractional seconds. -/
def claimedTimeShape (cs : List Char) : Bool :=
  match cs with
  | [h1, h2, ':', m1, m2] => allDigits [h1, h2, m1, m2]
  | [h1, h2, ':', m1, m2, ':', s1, s2] => allDigits [h1, h2, m1, m2, s1, s2]
  | h1 :: h2 :: ':' :: m1 :: m2 :: ':' :: s1 :: s2 :: '.' :: fs =>
    allDigits [h1, h2, m1, m2, s1, s2] && allDigits fs &&
      decide (1 ≤ fs.length) && decide (fs.length ≤ 6)
  | _ => false

/-- Claim wording (C5): the textual formats the claim says are accepted
exactly — `YYYY-MM-DD`, `YYYY/MM/DD`, `DD-MM-YYYY`, ISO 8601 with optional
time and fractional seconds, and bare `YYYY-MM`. -/
def claimedDateFormat (s : String) : Bool :=
  match s.data with
  | [y1, y2, y3, y4, '-', m1, m2, '-', d1, d2] =>
    allDigits [y1, y2, y3, y4, m1, m2, d1, d2]
  | [y1, y2, y3, y4, '/', m1, m2, '/', d1, d2] =>
    allDigits [y1, y2, y3, y4, m1, m2, d1, d2]
  | [d1, d2, '-', m1, m2, '-', y1, y2, y3, y4] =>
    allDigits [y1, y2, y3, y4, m1, m2, d1, d2]
  | [y1, y2, y3, y4, '-', m1, m2] => allDigits [y1, y2, y3, y4, m1, m2]
  | y1 :: y2 :: y3 :: y4 :: '-' :: m1 :: m2 :: '-' :: d1 :: d2 :: sep :: t =>
    allDigits [y1, y2, y3, y4, m1, m2, d1, d2] && (sep = 'T' || sep = ' ') &&
      claimedTimeShape t
  | _ => false

/-- Claim wording (C3): descending rank order on the tuple
(revenue, conversions, return ratio), the ratio compared on ties of the
first two components. -/
def rankGE (a b : EntityAggregate) : Prop :=
  b.revenue < a.revenue ∨ (a.revenue = b.revenue ∧
    (b.conversions < a.conversions ∨ (a.conversions = b.conversions ∧
      b.roi.getD 0 ≤ a.roi.getD 0)))

instance (a b : EntityAggregate) : Decidable (rankGE a b) := by
  unfold rankGE
  infer_instance

/-- The months resolved from a record list, in iteration order. -/
def salesMonthsOf (records : List Row) : List MonthValue :=
  records.filterMap salesMonth

/-- Rows whose grouping name resolves for the scope. -/
def resolvedRows (data : List Row) (config : ScopeConfig) : List Row :=
  data.filter (fun r => (get_first_non_empty r config.group_keys).isSome)

/-! ## Concrete fixtures used by the theorems -/

/-- A marketing row carrying spend but no grouping-name candidate. -/
def rowNoName : Row := [("spend", Value.num 100), ("fecha", Value.str ("2024-01-05"))]

/-- An ads row with zero spend (undefined return ratio). -/
def rowAdA : Row :=
  [("ad_name", Value.str ("A")), ("revenue", Value.num 100),
   ("conversions", Value.num 5)]

/-- An ads row with the same revenue and conversions but non-zero spend
(defined return ratio). -/
def rowAdB : Row :=
  [("ad_name", Value.str ("B")), ("revenue", Value.num 100),
   ("conversions", Value.num 5), ("spend", Value.num 50)]

/-- A complete campaigns row. -/
def rowLaunch : Row :=
  [("campaign_name", Value.str ("Launch")), ("spend", Value.num 100),
   ("revenue", Value.num 300), ("conversions", Value.num 5),
   ("clicks", Value.num 50)]

/-- An aggregated entity with an undefined return ratio, as produced for a
zero-spend entity. -/
def entityNoRoi : EntityAggregate :=
  { name := "A", ids := [], spend := 0, revenue := 100, conversions := 5,
    clicks := 0, cpc_samples := [], roi := none, cpc := none }

/-- An aggregated entity tied with `entityNoRoi` on revenue and conversions
but with a defined return ratio. -/
def entityWithRoi : EntityAggregate :=
  { name := "B", ids := [], spend := 50, revenue := 100, conversions := 5,
    clicks := 0, cpc_samples := [], roi := some 2, cpc := none }

/-- Monthly sales rows: month 1 and 3 with lower revenue, month 2 highest. -/
def salesRow1 : Row := [("mes", Value.str ("2024-01")), ("ingresos", Value.num 100)]

def salesRow2 : Row := [("mes", Value.str ("2024-02")), ("ingresos", Value.num 300)]

def salesRow3 : Row := [("mes", Value.str ("2024-03")), ("ingresos", Value.num 200)]

/-- A monthly sales row whose revenue lies at or below the fold's `-1.0`
sentinel. -/
def salesRowNeg : Row := [("mes", Value.str ("2024-01")), ("ingresos", Value.num (-5))]

/-- A monthly sales row whose month cell is a native `datetime`: its month
value stays a datetime (day forced to 1, time kept). -/
def salesRowDt : Row :=
  [("mes", Value.datetime ⟨2024, 3, 15, 10, 0, 0, 0⟩), ("ingresos", Value.num 50)]

/-- The fold state produced by the three-month scenario (checked by
evaluation in the C10 witness). -/
def scenarioState : SalesState :=
  { best_month := some (MonthValue.d ⟨2024, 2, 1⟩),
    earliest_month := some (MonthValue.d ⟨2024, 1, 1⟩),
    best_revenue := 300, best_margin := some 100 }

/-- The aggregate produced for `rowLaunch` (checked by evaluation in the C4
witness). -/
def launchEntity : EntityAggregate :=
  { name := "Launch", ids := [], spend := 100, revenue := 300,
    conversions := 5, clicks := 50, cpc_samples := [], roi := some 3,
    cpc := some 2 }

/-! # Theorems -/

/-- C2: the claim says `build_marketing_report` never raises; the code is the
slip.  On two entities tied on revenue and conversions where exactly one has
an undefined return ratio (zero spend), the rank key of one is
`(100, 5, None)` and of the other `(100, 5, 2.0)`; CPython's sort compares
them and `None < float` raises `TypeError`.  The `entry.get("roi", 0.0)`
default in the source shows the intent (rank an undefined ratio as `0.0`),
but the key `"roi"` is always present — set to `None` by the post-pass — so
the default never applies.  The model evaluates the failing input to the
propagated error. -/
theorem claim_C2_raises_on_mixed_roi_tie :
    build_marketing_report [rowAdA, rowAdB] "ads" = Except.error () := by
  rfl

/-- C1: counterexample.  A row that resolves no grouping-key candidate has
coerced spend `100`, yet the aggregation pass leaves the overall spend at
`0`: the `continue` fires before any overall-total accumulation, so the row
is excluded from `OverallTotals` too (only `total_records` counts it),
contradicting the claim that its metrics are still folded into the overall
accumulator. -/
theorem claim_C1_counterexample :
    (aggregate_marketing_data [rowNoName] campaignsConfig).1 = [] ∧
    (aggregate_marketing_data [rowNoName] campaignsConfig).2.spend = 0 ∧
    (aggregate_marketing_data [rowNoName] campaignsConfig).2.total_records = 1 ∧
    extract_numeric rowNoName SPEND_KEYS = 100 ∧
    (aggregate_marketing_data [rowNoName] campaignsConfig).2.start_date = none := by
  decide

/-- C3: counterexample.  The claim says the ranker orders by the tuple
(revenue, conversions, return-ratio-or-zero); on two entities tied on the
first two components where exactly one return ratio is undefined, the sort
does not place the defined-ratio entity first — it fails (CPython raises
`TypeError`), so the "or-zero" reading of the third component is wrong. -/
theorem claim_C3_counterexample :
    sortEntitiesDesc [entityNoRoi, entityWithRoi] = Except.error () := by
  rfl

/-- C6: counterexample.  The claim says the resolver returns the first value
present in the row and not null; for a row whose candidate cell holds the
empty string — present and non-null — the resolver skips it (CPython
truthiness) and returns `None`. -/
theorem claim_C6_counterexample :
    get_first_non_empty [("campaign_name", Value.str (""))] ["campaign_name"]
        = none ∧
    rowGet [("campaign_name", Value.str (""))] "campaign_name"
        = some (Value.str ("")) ∧
    Value.str ("") ≠ Value.null := by
  decide

/-- C5: counterexample.  `"2024-01-15x"` is none of the claim's textual
formats, yet month coercion accepts it (the `%Y-%m` fallback parses the
first seven characters and ignores the rest); moreover `_parse_date` rejects
a native `date` (it is not a `datetime` instance) and returns a `datetime`
untruncated, against the claim's "native date/datetime values (truncated to
a date)". -/
theorem claim_C5_counterexample :
    parse_month_value (Value.str ("2024-01-15x")) = some (MonthValue.d ⟨2024, 1, 1⟩) ∧
    claimedDateFormat ("2024-01-15x") = false ∧
    parse_date (Value.date ⟨2024, 1, 15⟩) = none ∧
    parse_date (Value.datetime ⟨2024, 1, 15, 10, 30, 0, 0⟩)
        = some ⟨2024, 1, 15, 10, 30, 0, 0⟩ := by
  decide

/-- C10: counterexample.  For a single-row record list whose only month has
revenue `-5`, that month is the unique month with the highest resolved
revenue, yet the fold (which completes without raising here) never selects
it as best month (the running best revenue starts at the `-1.0` sentinel and
only a strictly greater revenue displaces it), and the rendered insight
carries no best-month line. -/
theorem claim_C10_counterexample :
    salesMonth salesRowNeg = some (MonthValue.d ⟨2024, 1, 1⟩) ∧
    salesRevenue salesRowNeg = -5 ∧
    salesFold [salesRowNeg] = Except.ok
      { best_month := none, earliest_month := some (MonthValue.d ⟨2024, 1, 1⟩),
        best_revenue := -1, best_margin := none } ∧
    build_sales_insights [salesRowNeg]
        = Except.ok (some ("INSIGHTS HISTÓRICOS:\n- 📅 Primer registro disponible: 2024-01.")) := by
  refine ⟨by decide, by decide, rfl, rfl⟩

/-- C7: numeric coercion defaults to 0.0 for null, unparsable strings,
non-finite floats, booleans, and empty or whitespace-only strings, strips
`$`, `,`, `%` before parsing, and maps the claim's four sample inputs to
1234.5, 12.0, 0.0 and 0.0. -/
theorem claim_C7_numeric_coercion :
    to_number (Value.str ("$1,234.50")) = 1234.5 ∧
    to_number (Value.str ("12%")) = 12 ∧
    to_number Value.null = 0 ∧
    to_number (Value.str ("abc")) = 0 ∧
    (∀ b, to_number (Value.bool b) = 0) ∧
    to_number Value.nonfinite = 0 ∧
    to_number (Value.str ("")) = 0 ∧
    (∀ s : String, s.data.all isPySpace = true → to_number (Value.str s) = 0) := by
  refine ⟨by decide, by decide, rfl, by decide, fun b => by cases b <;> rfl, rfl,
    rfl, ?_⟩
  intro s h
  have hall : ∀ c ∈ s.data, isPySpace c = true := List.all_eq_true.mp h
  have hdrop :
      (s.data.filter (fun c => !(c = '$' || c = ',' || c = '%'))).dropWhile
        isPySpace = [] := by
    rw [List.dropWhile_eq_nil_iff]
    intro c hc
    exact hall c (List.mem_of_mem_filter hc)
  have hclean : cleanNumericText s = "" := by
    unfold cleanNumericText pyStrip
    rw [hdrop]
    rfl
  simp [to_number, to_float, hclean]

/-- Closed witness for C7: the whitespace-only string `" "` coerces to 0. -/
theorem claim_C7_witness :
    (" ".data.all isPySpace = true) ∧ to_number (Value.str (" ")) = 0 :=
  ⟨by decide, claim_C7_numeric_coercion.2.2.2.2.2.2.2 (" ") (by decide)⟩

/-- C6 (amended): the field resolver returns the first *truthy* candidate
value (null, empty strings, numeric zero and `False` are skipped), converted
with `str`; the numeric resolver resolves the claim's `revenue`-before-
`ingresos` example to 100. -/
theorem claim_C6_amended :
    (∀ (r : Row) (keys : List String),
      get_first_non_empty r keys = (firstTruthyValue r keys).map pyStr) ∧
    extract_numeric [("revenue", Value.num 100), ("ingresos", Value.num 200)]
      REVENUE_KEYS = 100 := by
  refine ⟨?_, by decide⟩
  intro r keys
  induction keys with
  | nil => rfl
  | cons k ks ih =>
    unfold get_first_non_empty firstTruthyValue
    cases h : rowGet r k with
    | none => simpa using ih
    | some v =>
      by_cases t : v.truthy <;> simp [t, ih]

/-- C8: an unrecognized scope yields the fixed clarification message; a
recognized scope with no aggregated entity (empty data included) yields the
no-data message, which names the scope label. -/
theorem claim_C8_error_paths :
    (∀ (data : List Row) (scope : String),
      List.lookup scope SCOPE_CONFIG = none →
      build_marketing_report data scope = Except.ok unrecognizedScopeMessage) ∧
    (∀ (data : List Row) (scope : String) (config : ScopeConfig),
      List.lookup scope SCOPE_CONFIG = some config →
      (aggregate_marketing_data data config).1 = [] →
      build_marketing_report data scope = Except.ok (noDataMessage config)) ∧
    (∀ config : ScopeConfig, ∃ pre post : String,
      noDataMessage config = pre ++ config.label ++ post) := by
  refine ⟨?_, ?_, ?_⟩
  · intro data scope h
    unfold build_marketing_report
    rw [h]
  · intro data scope config h h2
    unfold build_marketing_report
    rw [h]
    simp [h2]
  · intro config
    refine ⟨"⚠️ No encontré datos para ",
      " en el período disponible. Verifica que la vista incluya columnas con nombres y métricas.",
      ?_⟩
    unfold noDataMessage
    rw [String.append_assoc]
    rfl

/-- Closed witness for C8: the empty row list under scope `ads` produces the
no-data message for `anuncios`. -/
theorem claim_C8_witness :
    build_marketing_report [] "ads" = Except.ok (noDataMessage adsConfig) :=
  claim_C8_error_paths.2.1 [] "ads" adsConfig rfl rfl

/-- C9: the pipeline is a pure function of its arguments — repeated calls on
the same row list and scope give identical results, repeated aggregations
give identical totals, and the one internally unordered container (the
Python identifier *set*) is rendered order-independently: sorting any
permutation of the identifiers gives the same list. -/
theorem claim_C9_determinism :
    (∀ (data : List Row) (scope : String),
      build_marketing_report data scope = build_marketing_report data scope) ∧
    (∀ (data : List Row) (config : ScopeConfig),
      aggregate_marketing_data data config = aggregate_marketing_data data config) ∧
    (∀ l1 l2 : List String, l1.Perm l2 → sortStrings l1 = sortStrings l2) := by
  refine ⟨fun _ _ => rfl, fun _ _ => rfl, ?_⟩
  intro l1 l2 h
  haveI h1 : IsTotal String (fun a b => a ≤ b) := ⟨fun a b => le_total a b⟩
  haveI h2 : IsTrans String (fun a b => a ≤ b) := ⟨fun _ _ _ => le_trans⟩
  haveI h3 : IsAntisymm String (fun a b => a ≤ b) := ⟨fun _ _ => le_antisymm⟩
  exact List.eq_of_perm_of_sorted
    ((List.perm_insertionSort _ l1).trans
      (h.trans (List.perm_insertionSort _ l2).symm))
    (List.sorted_insertionSort _ l1) (List.sorted_insertionSort _ l2)

/-- Closed witness for C9: two permutations of the same identifier set sort
identically. -/
theorem claim_C9_witness : sortStrings ["b", "a"] = sortStrings ["a", "b"] :=
  claim_C9_determinism.2.2 ["b", "a"] ["a", "b"] (List.Perm.swap ("a") ("b") [])

/-- C4: after the post-pass, every entity aggregate and the overall totals
have return ratio `revenue / spend` exactly when spend is non-zero and
undefined when spend is zero (even with positive revenue), and cost-per-click
`spend / clicks` when clicks are positive, else the arithmetic mean of the
accumulated CPC samples when any exist, else undefined. -/
theorem claim_C4_derived_metrics (data : List Row) (config : ScopeConfig) :
    (∀ e ∈ (aggregate_marketing_data data config).1,
      (e.spend ≠ 0 → e.roi = some (e.revenue / e.spend)) ∧
      (e.spend = 0 → e.roi = none) ∧
      (0 < e.clicks → e.cpc = some (e.spend / e.clicks)) ∧
      (¬ 0 < e.clicks → e.cpc_samples ≠ [] →
        e.cpc = some (e.cpc_samples.sum / (e.cpc_samples.length : ℚ))) ∧
      (¬ 0 < e.clicks → e.cpc_samples = [] → e.cpc = none)) ∧
    ((aggregate_marketing_data data config).2.spend ≠ 0 →
      (aggregate_marketing_data data config).2.roi =
        some ((aggregate_marketing_data data config).2.revenue /
          (aggregate_marketing_data data config).2.spend)) ∧
    ((aggregate_marketing_data data config).2.spend = 0 →
      (aggregate_marketing_data data config).2.roi = none) ∧
    (0 < (aggregate_marketing_data data config).2.clicks →
      (aggregate_marketing_data data config).2.cpc =
        some ((aggregate_marketing_data data config).2.spend /
          (aggregate_marketing_data data config).2.clicks)) ∧
    (¬ 0 < (aggregate_marketing_data data config).2.clicks →
      (aggregate_marketing_data data config).2.cpc_samples ≠ [] →
      (aggregate_marketing_data data config).2.cpc =
        some ((aggregate_marketing_data data config).2.cpc_samples.sum /
          ((aggregate_marketing_data data config).2.cpc_samples.length : ℚ))) ∧
    (¬ 0 < (aggregate_marketing_data data config).2.clicks →
      (aggregate_marketing_data data config).2.cpc_samples = [] →
      (aggregate_marketing_data data config).2.cpc = none) := by
  have hsnd : (aggregate_marketing_data data config).2 =
      overallPostPass (data.foldl (aggStep config) ([], initialOverall data)).2 := rfl
  constructor
  · intro e he
    have hmap : (aggregate_marketing_data data config).1 =
        (data.foldl (aggStep config) ([], initialOverall data)).1.map entityPostPass :=
      rfl
    rw [hmap] at he
    obtain ⟨e0, _, rfl⟩ := List.mem_map.mp he
    refine ⟨fun h => ?_, fun h => ?_, fun h => ?_, fun h h2 => ?_, fun h h2 => ?_⟩
    · simp only [entityPostPass, safe_div] at h ⊢
      rw [if_pos h]
    · simp only [entityPostPass, safe_div] at h ⊢
      rw [if_neg (by simpa using h)]
    · simp only [entityPostPass, safe_div] at h ⊢
      rw [if_pos h, if_pos (by exact ne_of_gt h)]
    · simp only [entityPostPass] at h h2 ⊢
      rw [if_neg h, if_pos h2]
    · simp only [entityPostPass] at h h2 ⊢
      rw [if_neg h, if_neg (by simpa using h2)]
  · rw [hsnd]
    generalize (data.foldl (aggStep config) ([], initialOverall data)).2 = o
    refine ⟨fun h => ?_, fun h => ?_, fun h => ?_, fun h h2 => ?_, fun h h2 => ?_⟩
    · simp only [overallPostPass, safe_div] at h ⊢
      rw [if_pos h]
    · simp only [overallPostPass, safe_div] at h ⊢
      rw [if_neg (by simpa using h)]
    · simp only [overallPostPass, safe_div] at h ⊢
      rw [if_pos h, if_pos (by exact ne_of_gt h)]
    · simp only [overallPostPass] at h h2 ⊢
      rw [if_neg h, if_pos h2]
    · simp only [overallPostPass] at h h2 ⊢
      rw [if_neg h, if_neg (by simpa using h2)]

/-- Closed witness for C4: the Launch campaign aggregate has spend 100,
revenue 300, clicks 50, so its return ratio evaluates to 3 and its CPC
to 2. -/
theorem claim_C4_witness :
    launchEntity ∈ (aggregate_marketing_data [rowLaunch] campaignsConfig).1 ∧
    launchEntity.roi = some 3 ∧ launchEntity.cpc = some 2 := by
  have hm : launchEntity ∈ (aggregate_marketing_data [rowLaunch] campaignsConfig).1 := by
    decide
  have h := (claim_C4_derived_metrics [rowLaunch] campaignsConfig).1 launchEntity hm
  refine ⟨hm, ?_, ?_⟩
  · have hr := h.1 (by decide)
    rw [hr]
    decide
  · have hc := h.2.2.1 (by decide)
    rw [hc]
    decide

lemma aggStep_skip (config : ScopeConfig)
    (st : List EntityAggregate × OverallTotals) (r : Row)
    (h : get_first_non_empty r config.group_keys = none) :
    aggStep config st r = st := by
  unfold aggStep
  rw [h]

lemma foldl_aggStep_resolved (config : ScopeConfig) :
    ∀ (data : List Row) (st : List EntityAggregate × OverallTotals),
      data.foldl (aggStep config) st
        = (resolvedRows data config).foldl (aggStep config) st := by
  intro data
  induction data with
  | nil => intro st; rfl
  | cons r rest ih =>
    intro st
    unfold resolvedRows at ih ⊢
    rw [List.filter_cons]
    cases h : get_first_non_empty r config.group_keys with
    | none =>
      simp only [h, Option.isSome_none, Bool.false_eq_true, if_false,
        List.foldl_cons, aggStep_skip config st r h]
      exact ih st
    | some name =>
      simp only [h, Option.isSome_some, if_true, List.foldl_cons]
      exact ih _

lemma aggStep_total_records (config : ScopeConfig)
    (st : List EntityAggregate × OverallTotals) (r : Row) (n : Nat) :
    aggStep config (st.1, { st.2 with total_records := n }) r
      = ((aggStep config st r).1,
         { (aggStep config st r).2 with total_records := n }) := by
  obtain ⟨aggs, o⟩ := st
  cases o
  unfold aggStep
  cases h : get_first_non_empty r config.group_keys <;> simp

lemma foldl_aggStep_total_records (config : ScopeConfig) :
    ∀ (data : List Row) (st : List EntityAggregate × OverallTotals) (n : Nat),
      data.foldl (aggStep config) (st.1, { st.2 with total_records := n })
        = ((data.foldl (aggStep config) st).1,
           { (data.foldl (aggStep config) st).2 with total_records := n }) := by
  intro data
  induction data with
  | nil => intro st n; rfl
  | cons r rest ih =>
    intro st n
    simp only [List.foldl_cons, aggStep_total_records config st r n]
    exact ih _ n

lemma overallPostPass_total_records (o : OverallTotals) (n : Nat) :
    overallPostPass { o with total_records := n }
      = { overallPostPass o with total_records := n } := by
  cases o
  simp [overallPostPass]

/-- C1 (amended): a row for which no grouping-key candidate resolves a name
is excluded from the per-entity aggregates *and* from every overall
accumulator — spend, revenue, conversions, clicks, CPC samples and date
range all come from the resolving rows only; an unresolved row contributes
solely to `total_records`, which counts the whole input. -/
theorem claim_C1_amended (data : List Row) (config : ScopeConfig) :
    aggregate_marketing_data data config =
      ((aggregate_marketing_data (resolvedRows data config) config).1,
       { (aggregate_marketing_data (resolvedRows data config) config).2 with
         total_records := data.length }) ∧
    (aggregate_marketing_data data config).2.total_records = data.length := by
  have base : (([] : List EntityAggregate), initialOverall data)
      = ((([] : List EntityAggregate),
          initialOverall (resolvedRows data config)).1,
         { (([] : List EntityAggregate),
            initialOverall (resolvedRows data config)).2 with
           total_records := data.length }) := rfl
  have key : data.foldl (aggStep config) ([], initialOverall data)
      = (((resolvedRows data config).foldl (aggStep config)
            ([], initialOverall (resolvedRows data config))).1,
         { ((resolvedRows data config).foldl (aggStep config)
              ([], initialOverall (resolvedRows data config))).2 with
           total_records := data.length }) := by
    rw [foldl_aggStep_resolved config data, base,
      foldl_aggStep_total_records config]
  constructor
  · unfold aggregate_marketing_data
    rw [key]
    simp [overallPostPass]
  · unfold aggregate_marketing_data
    rw [key]
    simp [overallPostPass]

lemma except_ok_bind {α β : Type} (a : α) (f : α → Except Unit β) :
    (Except.ok a >>= f) = f a := rfl

lemma rankGE_refl (a : EntityAggregate) : rankGE a a :=
  Or.inr ⟨rfl, Or.inr ⟨rfl, le_refl _⟩⟩

lemma rankGE_total (a b : EntityAggregate) : rankGE a b ∨ rankGE b a := by
  unfold rankGE
  rcases lt_trichotomy a.revenue b.revenue with h | h | h
  · exact Or.inr (Or.inl h)
  · rcases lt_trichotomy a.conversions b.conversions with h2 | h2 | h2
    · exact Or.inr (Or.inr ⟨h.symm, Or.inl h2⟩)
    · rcases le_total (b.roi.getD 0) (a.roi.getD 0) with h3 | h3
      · exact Or.inl (Or.inr ⟨h, Or.inr ⟨h2, h3⟩⟩)
      · exact Or.inr (Or.inr ⟨h.symm, Or.inr ⟨h2.symm, h3⟩⟩)
    · exact Or.inl (Or.inr ⟨h, Or.inl h2⟩)
  · exact Or.inl (Or.inl h)

lemma rankGE_trans (a b c : EntityAggregate) :
    rankGE a b → rankGE b c → rankGE a c := by
  unfold rankGE
  intro h1 h2
  rcases h1 with h1 | ⟨e1, h1c | ⟨e1c, h1r⟩⟩ <;>
    rcases h2 with h2 | ⟨e2, h2c | ⟨e2c, h2r⟩⟩
  · exact Or.inl (by linarith)
  · exact Or.inl (by linarith)
  · exact Or.inl (by linarith)
  · exact Or.inl (by linarith)
  · exact Or.inr ⟨e1.trans e2, Or.inl (by linarith)⟩
  · exact Or.inr ⟨e1.trans e2, Or.inl (by linarith)⟩
  · exact Or.inl (by linarith)
  · exact Or.inr ⟨e1.trans e2, Or.inl (by linarith)⟩
  · exact Or.inr ⟨e1.trans e2, Or.inr ⟨e1c.trans e2c, le_trans h2r h1r⟩⟩

lemma cmpRankKey_defined (a b : EntityAggregate)
    (ha : a.roi ≠ none) (hb : b.roi ≠ none) :
    (rankGE a b → ∃ c, cmpRankKey a b = Except.ok c ∧ c ≠ Ordering.lt) ∧
    (¬ rankGE a b → cmpRankKey a b = Except.ok Ordering.lt) := by
  obtain ⟨ra, hra⟩ := Option.ne_none_iff_exists'.mp ha
  obtain ⟨rb, hrb⟩ := Option.ne_none_iff_exists'.mp hb
  unfold cmpRankKey
  by_cases h1 : a.revenue = b.revenue
  · by_cases h2 : a.conversions = b.conversions
    · rw [if_neg (by simpa using h1), if_neg (by simpa using h2), hra, hrb]
      constructor
      · intro hr
        refine ⟨compare ra rb, rfl, ?_⟩
        rcases hr with h | ⟨_, h | ⟨_, h⟩⟩
        · exact absurd h (by rw [h1]; exact lt_irrefl _)
        · exact absurd h (by rw [h2]; exact lt_irrefl _)
        · rw [hra, hrb] at h
          simp only [Option.getD_some] at h
          simp [compare_lt_iff_lt, not_lt, h]
      · intro hr
        have hlt : ra < rb := by
          by_contra hcon
          exact hr (Or.inr ⟨h1, Or.inr ⟨h2, by
            simp only [hra, hrb, Option.getD_some]
            exact le_of_not_lt hcon⟩⟩)
        simp [compare_lt_iff_lt, hlt]
    · rw [if_neg (by simpa using h1), if_pos h2]
      constructor
      · intro hr
        refine ⟨compare a.conversions b.conversions, rfl, ?_⟩
        rcases hr with h | ⟨_, h | ⟨he, _⟩⟩
        · exact absurd h (by rw [h1]; exact lt_irrefl _)
        · simp [compare_lt_iff_lt, not_lt, le_of_lt h]
        · exact absurd he h2
      · intro hr
        have hlt : a.conversions < b.conversions := by
          rcases lt_trichotomy a.conversions b.conversions with h | h | h
          · exact h
          · exact absurd h h2
          · exact absurd (Or.inr ⟨h1, Or.inl h⟩) hr
        simp [compare_lt_iff_lt, hlt]
  · rw [if_pos h1]
    constructor
    · intro hr
      refine ⟨compare a.revenue b.revenue, rfl, ?_⟩
      rcases hr with h | ⟨he, _⟩
      · simp [compare_lt_iff_lt, not_lt, le_of_lt h]
      · exact absurd he h1
    · intro hr
      have hlt : a.revenue < b.revenue := by
        rcases lt_trichotomy a.revenue b.revenue with h | h | h
        · exact h
        · exact absurd h h1
        · exact absurd (Or.inl h) hr
      simp [compare_lt_iff_lt, hlt]

lemma insertDesc_eq_orderedInsert (x : EntityAggregate) :
    ∀ (l : List EntityAggregate), x.roi ≠ none → (∀ y ∈ l, y.roi ≠ none) →
      insertDesc x l = Except.ok (List.orderedInsert rankGE x l) := by
  intro l
  induction l with
  | nil => intro _ _; rfl
  | cons y ys ih =>
    intro hx hl
    have hy : y.roi ≠ none := hl y (List.mem_cons_self y ys)
    by_cases hr : rankGE x y
    · obtain ⟨c, hc, hcl⟩ := (cmpRankKey_defined x y hx hy).1 hr
      simp only [insertDesc, hc, except_ok_bind, List.orderedInsert, if_pos hr]
      rw [if_pos hcl]
    · have hc := (cmpRankKey_defined x y hx hy).2 hr
      have ht := ih hx (fun z hz => hl z (List.mem_cons_of_mem y hz))
      simp only [insertDesc, hc, except_ok_bind, List.orderedInsert, if_neg hr]
      rw [if_neg (not_not_intro rfl), ht, except_ok_bind]

lemma sortEntitiesDesc_eq_insertionSort :
    ∀ (l : List EntityAggregate), (∀ e ∈ l, e.roi ≠ none) →
      sortEntitiesDesc l = Except.ok (List.insertionSort rankGE l) := by
  intro l
  induction l with
  | nil => intro _; rfl
  | cons x xs ih =>
    intro hl
    have hx : x.roi ≠ none := hl x (List.mem_cons_self x xs)
    have ht := ih (fun z hz => hl z (List.mem_cons_of_mem x hz))
    have hmem : ∀ y ∈ List.insertionSort rankGE xs, y.roi ≠ none := by
      intro y hy
      exact hl y (List.mem_cons_of_mem x
        ((List.perm_insertionSort rankGE xs).mem_iff.mp hy))
    simp only [sortEntitiesDesc, ht, except_ok_bind, List.insertionSort]
    exact insertDesc_eq_orderedInsert x (List.insertionSort rankGE xs) hx hmem

/-- C3 (amended): when every compared return ratio is defined (in particular
when no entity has zero spend), the ranker totally orders the aggregates
descending by the tuple (revenue, conversions, return ratio) — equal
revenues are broken by conversions, equal conversions by return ratio — the
standout head dominates every entity, and the ranked list length is
min(3, count); when a tie on (revenue, conversions) compares a defined with
an undefined ratio, the sort instead fails (CPython raises `TypeError`, see
the counterexample). -/
theorem claim_C3_amended (l : List EntityAggregate)
    (hl : ∀ e ∈ l, e.roi ≠ none) :
    ∃ l', sortEntitiesDesc l = Except.ok l' ∧ l'.Perm l ∧
      l'.Pairwise rankGE ∧
      (∀ b rest, l' = b :: rest → ∀ a ∈ l, rankGE b a) ∧
      (l'.take (min 3 l'.length)).length = min 3 l.length := by
  haveI : IsTotal EntityAggregate rankGE := ⟨rankGE_total⟩
  haveI : IsTrans EntityAggregate rankGE := ⟨rankGE_trans⟩
  refine ⟨List.insertionSort rankGE l, sortEntitiesDesc_eq_insertionSort l hl,
    List.perm_insertionSort rankGE l, List.sorted_insertionSort rankGE l,
    ?_, ?_⟩
  · intro b rest he a ha
    have haIn : a ∈ List.insertionSort rankGE l :=
      (List.perm_insertionSort rankGE l).mem_iff.mpr ha
    rw [he] at haIn
    rcases List.mem_cons.mp haIn with rfl | hmem
    · exact rankGE_refl a
    · have hs := List.sorted_insertionSort rankGE l
      rw [he] at hs
      exact (List.pairwise_cons.mp hs).1 a hmem
  · have hlen : (List.insertionSort rankGE l).length = l.length :=
      (List.perm_insertionSort rankGE l).length_eq
    rw [List.length_take, hlen]
    omega

/-- Closed witness for C3: two entities with defined return ratios sort
successfully with the dominant one first. -/
theorem claim_C3_witness :
    (∀ e ∈ [entityWithRoi, launchEntity], e.roi ≠ none) ∧
    (∃ l', sortEntitiesDesc [entityWithRoi, launchEntity] = Except.ok l' ∧
      l'.Perm [entityWithRoi, launchEntity] ∧ l'.Pairwise rankGE ∧
      (∀ b rest, l' = b :: rest →
        ∀ a ∈ [entityWithRoi, launchEntity], rankGE b a) ∧
      (l'.take (min 3 l'.length)).length
        = min 3 ([entityWithRoi, launchEntity].length)) :=
  ⟨by decide, claim_C3_amended [entityWithRoi, launchEntity] (by decide)⟩

lemma parse_month_str_eq (s : String) :
    parse_month_value (Value.str s) =
      (match strptimeYmd ((pyStrip s).data) with
       | some d => some (MonthValue.d ⟨d.y, d.m, 1⟩)
       | none =>
         match strptimeYmdSlash ((pyStrip s).data) with
         | some d => some (MonthValue.d ⟨d.y, d.m, 1⟩)
         | none =>
           match strptimeDmy ((pyStrip s).data) with
           | some d => some (MonthValue.d ⟨d.y, d.m, 1⟩)
           | none =>
             match strptimeYm (((pyStrip s).data).take 7) with
             | some d => some (MonthValue.d d)
             | none => none) := rfl

lemma pyStrip_prefix_2024_01Q (s : String) :
    (pyStrip ("2024-01Q" ++ s)).data
      = "2024-01Q".data ++ (s.data.reverse.dropWhile isPySpace).reverse := by
  have h1 : ("2024-01Q" ++ s).data = "2024-01Q".data ++ s.data :=
    String.data_append _ _
  have hlit : List.dropWhile isPySpace ("2024-01Q".data) = "2024-01Q".data := by
    decide
  have hlitrev : List.dropWhile isPySpace ("2024-01Q".data.reverse)
      = "2024-01Q".data.reverse := by decide
  show ((((("2024-01Q" ++ s).data).dropWhile isPySpace).reverse.dropWhile
      isPySpace).reverse)
    = "2024-01Q".data ++ (s.data.reverse.dropWhile isPySpace).reverse
  rw [h1, List.dropWhile_append, hlit, if_neg (by decide), List.reverse_append,
    List.dropWhile_append]
  by_cases he : (List.dropWhile isPySpace s.data.reverse).isEmpty = true
  · rw [if_pos he, hlitrev, List.isEmpty_iff.mp he]
    simp
  · rw [if_neg he, List.reverse_append, List.reverse_reverse]

/-- C5 (amended): month coercion accepts native date values with the day
replaced by 1, and native datetime values with the day replaced by 1 while
keeping their datetime type and time of day (not truncated to a date); it
accepts full-string `YYYY-MM-DD`, `YYYY/MM/DD` and `DD-MM-YYYY`, each
truncated to day 1; and the `YYYY-MM` fallback is matched against the first
seven characters only, so *any* input beginning with a valid `YYYY-MM` is
accepted with all trailing characters ignored; everything else — unparsable
strings and non-string non-date values — yields `None` without raising.
The companion `_parse_date` returns `datetime` inputs unchanged (no
truncation), rejects plain `date` objects, and does not accept
`DD-MM-YYYY`. -/
theorem claim_C5_amended :
    (∀ y m d : Nat,
      parse_month_value (Value.date ⟨y, m, d⟩) = some (MonthValue.d ⟨y, m, 1⟩)) ∧
    (∀ t : PyDateTime,
      parse_month_value (Value.datetime t)
        = some (MonthValue.dt ⟨t.y, t.m, 1, t.hh, t.mi, t.ss, t.us⟩)) ∧
    (∀ s : String,
      parse_month_value (Value.str ("2024-01Q" ++ s))
        = some (MonthValue.d ⟨2024, 1, 1⟩)) ∧
    (parse_month_value (Value.str ("2024-01-15")) = some (MonthValue.d ⟨2024, 1, 1⟩) ∧
     parse_month_value (Value.str ("2024/01/15")) = some (MonthValue.d ⟨2024, 1, 1⟩) ∧
     parse_month_value (Value.str ("15-01-2024")) = some (MonthValue.d ⟨2024, 1, 1⟩) ∧
     parse_month_value (Value.str ("2024-01")) = some (MonthValue.d ⟨2024, 1, 1⟩) ∧
     parse_month_value (Value.str ("garbage")) = none ∧
     parse_month_value (Value.num 5) = none ∧
     parse_month_value Value.null = none) ∧
    (∀ t : PyDateTime, parse_date (Value.datetime t) = some t) ∧
    (∀ d : PyDate, parse_date (Value.date d) = none) ∧
    parse_date (Value.str ("01-02-2024")) = none := by
  refine ⟨fun y m d => rfl, fun t => rfl, ?_, by decide, fun t => rfl,
    fun d => rfl, by decide⟩
  intro s
  rw [parse_month_str_eq, pyStrip_prefix_2024_01Q]
  rfl

lemma pyDate_lt_iff (a b : PyDate) : (a.lt b = true) ↔
    (a.y < b.y ∨ (a.y = b.y ∧ (a.m < b.m ∨ (a.m = b.m ∧ a.d < b.d)))) := by
  unfold PyDate.lt PyDate.cmp
  rcases Nat.lt_trichotomy a.y b.y with h | h | h
  · rw [Nat.compare_eq_lt.mpr h]
    simp only [Ordering.then]
    exact ⟨fun _ => Or.inl h, fun _ => rfl⟩
  · rw [Nat.compare_eq_eq.mpr h]
    rcases Nat.lt_trichotomy a.m b.m with h2 | h2 | h2
    · rw [Nat.compare_eq_lt.mpr h2]
      simp only [Ordering.then]
      exact ⟨fun _ => Or.inr ⟨h, Or.inl h2⟩, fun _ => rfl⟩
    · rw [Nat.compare_eq_eq.mpr h2]
      rcases Nat.lt_trichotomy a.d b.d with h3 | h3 | h3
      · rw [Nat.compare_eq_lt.mpr h3]
        simp only [Ordering.then]
        exact ⟨fun _ => Or.inr ⟨h, Or.inr ⟨h2, h3⟩⟩, fun _ => rfl⟩
      · rw [Nat.compare_eq_eq.mpr h3]
        simp only [Ordering.then]
        constructor
        · intro hx
          simp at hx
        · intro hr
          exfalso
          rcases hr with h' | ⟨_, h' | ⟨_, h'⟩⟩ <;> omega
      · rw [Nat.compare_eq_gt.mpr h3]
        simp only [Ordering.then]
        constructor
        · intro hx
          simp at hx
        · intro hr
          exfalso
          rcases hr with h' | ⟨_, h' | ⟨_, h'⟩⟩ <;> omega
    · rw [Nat.compare_eq_gt.mpr h2]
      simp only [Ordering.then]
      constructor
      · intro hx
        simp at hx
      · intro hr
        exfalso
        rcases hr with h' | ⟨_, h' | ⟨_, h'⟩⟩ <;> omega
  · rw [Nat.compare_eq_gt.mpr h]
    simp only [Ordering.then]
    constructor
    · intro hx
      simp at hx
    · intro hr
      exfalso
      rcases hr with h' | ⟨_, h' | ⟨_, h'⟩⟩ <;> omega

lemma pyDate_lt_false_iff (a b : PyDate) : (a.lt b = false) ↔
    ¬ (a.y < b.y ∨ (a.y = b.y ∧ (a.m < b.m ∨ (a.m = b.m ∧ a.d < b.d)))) := by
  rw [← pyDate_lt_iff]
  cases h : a.lt b <;> simp

lemma except_error_bind {α β : Type} (f : α → Except Unit β) :
    ((Except.error () : Except Unit α) >>= f) = Except.error () := rfl

lemma salesFoldAux_cons (st : SalesState) (r : Row) (rest : List Row) :
    salesFoldAux st (r :: rest)
      = (salesStep st r >>= fun st2 => salesFoldAux st2 rest) := rfl

lemma salesStep_none (st : SalesState) (r : Row) (h : salesMonth r = none) :
    salesStep st r = Except.ok st := by
  unfold salesStep
  rw [h]

lemma salesStep_err (st : SalesState) (r : Row) (m : MonthValue)
    (hm : salesMonth r = some m) (hse : stepEarliest st m = Except.error ()) :
    salesStep st r = Except.error () := by
  unfold salesStep
  rw [hm]
  dsimp only
  rw [hse]
  rfl

lemma salesStep_some_gt (st : SalesState) (r : Row) (m : MonthValue)
    (em : Option MonthValue) (hm : salesMonth r = some m)
    (hse : stepEarliest st m = Except.ok em)
    (hgt : salesRevenue r > st.best_revenue) :
    salesStep st r = Except.ok
      { best_month := some m, earliest_month := em,
        best_revenue := salesRevenue r, best_margin := salesMargin r } := by
  unfold salesStep
  rw [hm]
  dsimp only
  rw [hse]
  simp only [except_ok_bind]
  rw [if_pos hgt]

lemma salesStep_some_le (st : SalesState) (r : Row) (m : MonthValue)
    (em : Option MonthValue) (hm : salesMonth r = some m)
    (hse : stepEarliest st m = Except.ok em)
    (hle : ¬ salesRevenue r > st.best_revenue) :
    salesStep st r = Except.ok { st with earliest_month := em } := by
  unfold salesStep
  rw [hm]
  dsimp only
  rw [hse]
  simp only [except_ok_bind]
  rw [if_neg hle]

lemma stepEarliest_cases (st : SalesState) (m : MonthValue)
    (em : Option MonthValue) (h : stepEarliest st m = Except.ok em) :
    (st.earliest_month = none ∧ em = some m) ∨
    (∃ e b, st.earliest_month = some e ∧ monthLt m e = Except.ok b ∧
      em = (if b then some m else some e)) := by
  unfold stepEarliest at h
  cases he : st.earliest_month with
  | none =>
    rw [he] at h
    exact Or.inl ⟨rfl, (Except.ok.inj h).symm⟩
  | some e =>
    rw [he] at h
    dsimp only at h
    cases hb : monthLt m e with
    | error u =>
      cases u
      rw [hb, except_error_bind] at h
      exact absurd h (by simp)
    | ok b =>
      rw [hb, except_ok_bind] at h
      exact Or.inr ⟨e, b, rfl, hb, (Except.ok.inj h).symm⟩

lemma salesStep_ok_cases (st : SalesState) (r : Row) (st2 : SalesState)
    (h : salesStep st r = Except.ok st2) :
    (salesMonth r = none ∧ st2 = st) ∨
    (∃ m em, salesMonth r = some m ∧ stepEarliest st m = Except.ok em ∧
      ((salesRevenue r > st.best_revenue ∧
        st2 = { best_month := some m, earliest_month := em,
                best_revenue := salesRevenue r, best_margin := salesMargin r }) ∨
       (¬ salesRevenue r > st.best_revenue ∧
        st2 = { st with earliest_month := em }))) := by
  cases hm : salesMonth r with
  | none =>
    rw [salesStep_none st r hm] at h
    exact Or.inl ⟨rfl, (Except.ok.inj h).symm⟩
  | some m =>
    cases hse : stepEarliest st m with
    | error u =>
      cases u
      rw [salesStep_err st r m hm hse] at h
      exact absurd h (by simp)
    | ok em =>
      by_cases hgt : salesRevenue r > st.best_revenue
      · rw [salesStep_some_gt st r m em hm hse hgt] at h
        exact Or.inr ⟨m, em, rfl, hse, Or.inl ⟨hgt, (Except.ok.inj h).symm⟩⟩
      · rw [salesStep_some_le st r m em hm hse hgt] at h
        exact Or.inr ⟨m, em, rfl, hse, Or.inr ⟨hgt, (Except.ok.inj h).symm⟩⟩

lemma salesFoldAux_cons_ok (st : SalesState) (r : Row) (rest : List Row)
    (stf : SalesState) (h : salesFoldAux st (r :: rest) = Except.ok stf) :
    ∃ st2, salesStep st r = Except.ok st2 ∧
      salesFoldAux st2 rest = Except.ok stf := by
  rw [salesFoldAux_cons] at h
  cases hs : salesStep st r with
  | error u =>
    cases u
    rw [hs, except_error_bind] at h
    exact absurd h (by simp)
  | ok st2 =>
    rw [hs, except_ok_bind] at h
    exact ⟨st2, rfl, h⟩

lemma then_lt_iff (o1 o2 : Ordering) :
    (o1.then o2 = Ordering.lt) ↔
      (o1 = Ordering.lt ∨ (o1 = Ordering.eq ∧ o2 = Ordering.lt)) := by
  cases o1 <;> cases o2 <;> decide

lemma then_eq_iff (o1 o2 : Ordering) :
    (o1.then o2 = Ordering.eq) ↔ (o1 = Ordering.eq ∧ o2 = Ordering.eq) := by
  cases o1 <;> cases o2 <;> decide

set_option maxHeartbeats 2000000 in
lemma pyDateTime_lt_iff (a b : PyDateTime) : (a.lt b = true) ↔
    (a.y < b.y ∨ (a.y = b.y ∧ (a.m < b.m ∨ (a.m = b.m ∧ (a.d < b.d ∨ (a.d = b.d ∧
      (a.hh < b.hh ∨ (a.hh = b.hh ∧ (a.mi < b.mi ∨ (a.mi = b.mi ∧
      (a.ss < b.ss ∨ (a.ss = b.ss ∧ a.us < b.us)))))))))))) := by
  unfold PyDateTime.lt PyDateTime.cmp
  simp only [decide_eq_true_eq, then_lt_iff, then_eq_iff, Nat.compare_eq_lt,
    Nat.compare_eq_eq]
  omega

lemma monthLt_irrefl (a : MonthValue) : monthLt a a ≠ Except.ok true := by
  cases a with
  | d p =>
    intro h
    have h2 : p.lt p = true := Except.ok.inj h
    rw [pyDate_lt_iff] at h2
    omega
  | dt t =>
    intro h
    have h2 : t.lt t = true := Except.ok.inj h
    rw [pyDateTime_lt_iff] at h2
    omega

lemma monthLt_trans (a b c : MonthValue) (h1 : monthLt a b = Except.ok true)
    (h2 : monthLt b c = Except.ok true) : monthLt a c = Except.ok true := by
  cases a <;> cases b <;> cases c <;> simp [monthLt] at h1 h2 ⊢
  · rename_i pa pb pc
    rw [pyDate_lt_iff] at h1 h2 ⊢
    omega
  · rename_i ta tb tc
    rw [pyDateTime_lt_iff] at h1 h2 ⊢
    omega

lemma salesMonthsOf_cons_none (r : Row) (rest : List Row) (h : salesMonth r = none) :
    salesMonthsOf (r :: rest) = salesMonthsOf rest := by
  unfold salesMonthsOf
  rw [List.filterMap_cons, h]

lemma salesMonthsOf_cons_some (r : Row) (rest : List Row) (m : MonthValue)
    (h : salesMonth r = some m) :
    salesMonthsOf (r :: rest) = m :: salesMonthsOf rest := by
  unfold salesMonthsOf
  rw [List.filterMap_cons, h]

lemma salesFoldAux_append (l1 l2 : List Row) : ∀ st,
    salesFoldAux st (l1 ++ l2)
      = (salesFoldAux st l1 >>= fun st1 => salesFoldAux st1 l2) := by
  induction l1 with
  | nil =>
    intro st
    rfl
  | cons r rest ih =>
    intro st
    rw [List.cons_append, salesFoldAux_cons, salesFoldAux_cons]
    cases hs : salesStep st r with
    | error u =>
      rfl
    | ok st2 =>
      simp only [except_ok_bind]
      exact ih st2

lemma salesFoldAux_earliest_mem (records : List Row) : ∀ st stf v,
    salesFoldAux st records = Except.ok stf →
    stf.earliest_month = some v →
    st.earliest_month = some v ∨ v ∈ salesMonthsOf records := by
  induction records with
  | nil =>
    intro st stf v h hv
    exact Or.inl ((Except.ok.inj h) ▸ hv)
  | cons r rest ih =>
    intro st stf v h hv
    obtain ⟨st2, hs, hrest⟩ := salesFoldAux_cons_ok st r rest stf h
    rcases ih st2 stf v hrest hv with h2 | h2
    · rcases salesStep_ok_cases st r st2 hs with ⟨hm, hst⟩ | ⟨m, em, hm, hse, hbr⟩
      · subst hst
        rw [salesMonthsOf_cons_none r rest hm]
        exact Or.inl h2
      · have hem : st2.earliest_month = em := by
          rcases hbr with ⟨_, hst⟩ | ⟨_, hst⟩ <;> rw [hst]
        rcases stepEarliest_cases st m em hse with ⟨hnone, hem2⟩ | ⟨e, b, he, hb, hem2⟩
        · rw [hem, hem2] at h2
          have hvm : v = m := (Option.some.inj h2).symm
          subst hvm
          refine Or.inr ?h1
          rw [salesMonthsOf_cons_some r rest v hm]
          exact List.mem_cons_self _ _
        · cases b with
          | true =>
            simp at hem2
            rw [hem, hem2] at h2
            have hvm : v = m := (Option.some.inj h2).symm
            subst hvm
            refine Or.inr ?h2t
            rw [salesMonthsOf_cons_some r rest v hm]
            exact List.mem_cons_self _ _
          | false =>
            simp at hem2
            rw [hem, hem2] at h2
            have hve : v = e := (Option.some.inj h2).symm
            subst hve
            exact Or.inl he
    · refine Or.inr ?h3
      cases hm : salesMonth r with
      | none =>
        rw [salesMonthsOf_cons_none r rest hm]
        exact h2
      | some m =>
        rw [salesMonthsOf_cons_some r rest m hm]
        exact List.mem_cons_of_mem _ h2

lemma salesFoldAux_earliest_lb (records : List Row) : ∀ st stf v,
    salesFoldAux st records = Except.ok stf →
    stf.earliest_month = some v →
    (∀ d ∈ salesMonthsOf records, monthLt d v ≠ Except.ok true) ∧
    (∀ e, st.earliest_month = some e → (v = e ∨ monthLt v e = Except.ok true)) := by
  induction records with
  | nil =>
    intro st stf v h hv
    constructor
    · intro d hd
      simp [salesMonthsOf] at hd
    · intro e he
      have hst : st = stf := Except.ok.inj h
      subst hst
      rw [hv] at he
      exact Or.inl (Option.some.inj he)
  | cons r rest ih =>
    intro st stf v h hv
    obtain ⟨st2, hs, hrest⟩ := salesFoldAux_cons_ok st r rest stf h
    obtain ⟨hL, hM⟩ := ih st2 stf v hrest hv
    rcases salesStep_ok_cases st r st2 hs with ⟨hm, hst⟩ | ⟨m, em, hm, hse, hbr⟩
    · subst hst
      constructor
      · intro d hd
        rw [salesMonthsOf_cons_none r rest hm] at hd
        exact hL d hd
      · exact hM
    · have hem : st2.earliest_month = em := by
        rcases hbr with ⟨_, hst⟩ | ⟨_, hst⟩ <;> rw [hst]
      rcases stepEarliest_cases st m em hse with ⟨hnone, hem2⟩ | ⟨e, b, he, hb, hem2⟩
    
      · subst hem2
        have hMm := hM m (by rw [hem])
        have hmv : monthLt m v ≠ Except.ok true := by
          rcases hMm with hvm | hvlt
          · rw [hvm]
            exact monthLt_irrefl m
          · intro hmlt
            exact monthLt_irrefl m (monthLt_trans m v m hmlt hvlt)
        constructor
        · intro d hd
          rw [salesMonthsOf_cons_some r rest m hm] at hd
          rcases List.mem_cons.mp hd with hdm | hdr
          · subst hdm
            exact hmv
          · exact hL d hdr
        · intro e he
          rw [hnone] at he
          exact absurd he (by simp)
      · cases b with
        | true =>
          simp at hem2
          subst hem2
          have hMm := hM m (by rw [hem])
          have hmv : monthLt m v ≠ Except.ok true := by
            rcases hMm with hvm | hvlt
            · rw [hvm]
              exact monthLt_irrefl m
            · intro hmlt
              exact monthLt_irrefl m (monthLt_trans m v m hmlt hvlt)
          constructor
          · intro d hd
            rw [salesMonthsOf_cons_some r rest m hm] at hd
            rcases List.mem_cons.mp hd with hdm | hdr
            · subst hdm
              exact hmv
            · exact hL d hdr
          · intro e2 he2
            have he2e : e2 = e := by
              rw [he] at he2
              exact (Option.some.inj he2).symm
            subst he2e
            rcases hMm with hvm | hvlt
            · right
              rw [hvm]
              exact hb
            · right
              exact monthLt_trans v m e2 hvlt hb
        | false =>
          simp at hem2
          subst hem2
          have hMe := hM e (by rw [hem])
          constructor
          · intro d hd
            rw [salesMonthsOf_cons_some r rest m hm] at hd
            rcases List.mem_cons.mp hd with hdm | hdr
            · subst hdm
              intro hmlt
              rcases hMe with hve | hvlt
              · rw [hve] at hmlt
                rw [hb] at hmlt
                exact absurd (Except.ok.inj hmlt) (by decide)
              · have hme : monthLt d e = Except.ok true := monthLt_trans d v e hmlt hvlt
                rw [hb] at hme
                exact absurd (Except.ok.inj hme) (by decide)
            · exact hL d hdr
          · intro e2 he2
            have he2e : e2 = e := by
              rw [he] at he2
              exact (Option.some.inj he2).symm
            subst he2e
            exact hMe

lemma salesFoldAux_earliest_keep (records : List Row) : ∀ st stf,
    salesFoldAux st records = Except.ok stf →
    st.earliest_month ≠ none → stf.earliest_month ≠ none := by
  induction records with
  | nil =>
    intro st stf h hne
    rw [← Except.ok.inj h]
    exact hne
  | cons r rest ih =>
    intro st stf h hne
    obtain ⟨st2, hs, hrest⟩ := salesFoldAux_cons_ok st r rest stf h
    refine ih st2 stf hrest ?keep
    rcases salesStep_ok_cases st r st2 hs with ⟨hm, hst⟩ | ⟨m, em, hm, hse, hbr⟩
    · rw [hst]
      exact hne
    · have hem : st2.earliest_month = em := by
        rcases hbr with ⟨_, hst⟩ | ⟨_, hst⟩ <;> rw [hst]
      rcases stepEarliest_cases st m em hse with ⟨hnone, hem2⟩ | ⟨e, b, he, hb, hem2⟩
      · rw [hem, hem2]
        simp
      · cases b with
        | true =>
          simp at hem2
          rw [hem, hem2]
          simp
        | false =>
          simp at hem2
          rw [hem, hem2]
          simp

lemma salesFoldAux_earliest_some (records : List Row) : ∀ st stf,
    salesFoldAux st records = Except.ok stf →
    salesMonthsOf records ≠ [] →
    stf.earliest_month ≠ none := by
  induction records with
  | nil =>
    intro st stf h hne
    exact absurd rfl hne
  | cons r rest ih =>
    intro st stf h hne
    obtain ⟨st2, hs, hrest⟩ := salesFoldAux_cons_ok st r rest stf h
    cases hm : salesMonth r with
    | none =>
      refine ih st2 stf hrest ?ne
      rw [salesMonthsOf_cons_none r rest hm] at hne
      exact hne
    | some m =>
      rcases salesStep_ok_cases st r st2 hs with ⟨hmn, hst⟩ | ⟨m2, em, hm2, hse, hbr⟩
      · rw [hm] at hmn
        exact absurd hmn (by simp)
      · have hem : st2.earliest_month = em := by
          rcases hbr with ⟨_, hst⟩ | ⟨_, hst⟩ <;> rw [hst]
        have hemsome : st2.earliest_month ≠ none := by
          rcases stepEarliest_cases st m2 em hse with ⟨hnone, hem2⟩ | ⟨e, b, he, hb, hem2⟩
          · rw [hem, hem2]
            simp
          · cases b with
            | true =>
              simp at hem2
              rw [hem, hem2]
              simp
            | false =>
              simp at hem2
              rw [hem, hem2]
              simp
        exact salesFoldAux_earliest_keep rest st2 stf hrest hemsome

lemma salesFoldAux_best_lt (records : List Row) (B : ℚ) : ∀ st stf,
    salesFoldAux st records = Except.ok stf →
    (∀ r ∈ records, salesMonth r = none ∨ salesRevenue r < B) →
    st.best_revenue < B →
    stf.best_revenue < B := by
  induction records with
  | nil =>
    intro st stf h hall hlt
    rw [← Except.ok.inj h]
    exact hlt
  | cons r rest ih =>
    intro st stf h hall hlt
    obtain ⟨st2, hs, hrest⟩ := salesFoldAux_cons_ok st r rest stf h
    refine ih st2 stf hrest (fun r2 h2 => hall r2 (List.mem_cons_of_mem _ h2)) ?lt2
    rcases salesStep_ok_cases st r st2 hs with ⟨hm, hst⟩ | ⟨m, em, hm, hse, hbr⟩
    · rw [hst]
      exact hlt
    · rcases hbr with ⟨hgt, hst⟩ | ⟨hle, hst⟩
      · rw [hst]
        rcases hall r (List.mem_cons_self _ _) with hn | hr2
        · rw [hm] at hn
          exact absurd hn (by simp)
        · exact hr2
      · rw [hst]
        exact hlt

lemma salesFoldAux_best_frozen (records : List Row) : ∀ st stf,
    salesFoldAux st records = Except.ok stf →
    (∀ r ∈ records, salesMonth r = none ∨ salesRevenue r ≤ st.best_revenue) →
    stf.best_month = st.best_month ∧ stf.best_revenue = st.best_revenue ∧
      stf.best_margin = st.best_margin := by
  induction records with
  | nil =>
    intro st stf h hall
    rw [← Except.ok.inj h]
    exact ⟨rfl, rfl, rfl⟩
  | cons r rest ih =>
    intro st stf h hall
    obtain ⟨st2, hs, hrest⟩ := salesFoldAux_cons_ok st r rest stf h
    have hbfields : st2.best_month = st.best_month ∧
        st2.best_revenue = st.best_revenue ∧ st2.best_margin = st.best_margin := by
      rcases salesStep_ok_cases st r st2 hs with ⟨hm, hst⟩ | ⟨m, em, hm, hse, hbr⟩
      · rw [hst]
        exact ⟨rfl, rfl, rfl⟩
      · rcases hbr with ⟨hgt, hst⟩ | ⟨hle, hst⟩
        · rcases hall r (List.mem_cons_self _ _) with hn | hr2
          · rw [hm] at hn
            exact absurd hn (by simp)
          · exact absurd hgt (not_lt.mpr hr2)
        · rw [hst]
          exact ⟨rfl, rfl, rfl⟩
    obtain ⟨hb1, hb2, hb3⟩ := hbfields
    have hall2 : ∀ r2 ∈ rest, salesMonth r2 = none ∨ salesRevenue r2 ≤ st2.best_revenue := by
      intro r2 h2
      rw [hb2]
      exact hall r2 (List.mem_cons_of_mem _ h2)
    obtain ⟨c1, c2, c3⟩ := ih st2 stf hrest hall2
    exact ⟨c1.trans hb1, c2.trans hb2, c3.trans hb3⟩

lemma salesStep_ok_of_date (st : SalesState) (r : Row)
    (hst : st.earliest_month = none ∨ ∃ p, st.earliest_month = some (MonthValue.d p))
    (hr : ∀ m, salesMonth r = some m → m.isDate = true) :
    ∃ st2, salesStep st r = Except.ok st2 ∧
      (st2.earliest_month = none ∨ ∃ p, st2.earliest_month = some (MonthValue.d p)) := by
  cases hm : salesMonth r with
  | none =>
    exact ⟨st, salesStep_none st r hm, hst⟩
  | some m =>
    obtain ⟨p, hp⟩ : ∃ p, m = MonthValue.d p := by
      have hd := hr m hm
      cases m with
      | d p => exact ⟨p, rfl⟩
      | dt t => exact absurd hd (by simp [MonthValue.isDate])
    subst hp
    have hse : ∃ em, stepEarliest st (MonthValue.d p) = Except.ok em ∧
        ∃ q, em = some (MonthValue.d q) := by
      rcases hst with hn | ⟨q, hq⟩
      · refine ⟨some (MonthValue.d p), ?se1, p, rfl⟩
        unfold stepEarliest
        rw [hn]
      · refine ⟨if (PyDate.lt p q) = true then some (MonthValue.d p)
          else some (MonthValue.d q), ?se2, ?se3⟩
        · unfold stepEarliest
          rw [hq]
          rfl
        · by_cases hpq : (PyDate.lt p q) = true
          · rw [if_pos hpq]
            exact ⟨p, rfl⟩
          · rw [if_neg hpq]
            exact ⟨q, rfl⟩
    obtain ⟨em, hseok, q, hemd⟩ := hse
    by_cases hgt : salesRevenue r > st.best_revenue
    · exact ⟨_, salesStep_some_gt st r (MonthValue.d p) em hm hseok hgt,
        Or.inr ⟨q, hemd⟩⟩
    · exact ⟨_, salesStep_some_le st r (MonthValue.d p) em hm hseok hgt,
        Or.inr ⟨q, hemd⟩⟩

lemma salesFoldAux_ok_of_dates (records : List Row) : ∀ st,
    (st.earliest_month = none ∨ ∃ p, st.earliest_month = some (MonthValue.d p)) →
    (∀ v ∈ salesMonthsOf records, v.isDate = true) →
    ∃ stf, salesFoldAux st records = Except.ok stf := by
  induction records with
  | nil =>
    intro st hst hall
    exact ⟨st, rfl⟩
  | cons r rest ih =>
    intro st hst hall
    have hr : ∀ m, salesMonth r = some m → m.isDate = true := by
      intro m hm
      refine hall m ?mem
      rw [salesMonthsOf_cons_some r rest m hm]
      exact List.mem_cons_self _ _
    obtain ⟨st2, hs, hst2⟩ := salesStep_ok_of_date st r hst hr
    have hall2 : ∀ v ∈ salesMonthsOf rest, v.isDate = true := by
      intro v hv
      cases hm : salesMonth r with
      | none =>
        refine hall v ?m1
        rw [salesMonthsOf_cons_none r rest hm]
        exact hv
      | some m =>
        refine hall v ?m2
        rw [salesMonthsOf_cons_some r rest m hm]
        exact List.mem_cons_of_mem _ hv
    obtain ⟨stf, hf⟩ := ih st2 hst2 hall2
    refine ⟨stf, ?fin⟩
    rw [salesFoldAux_cons, hs, except_ok_bind]
    exact hf

/-- C10: the sales-insights fold tracks a best month and an earliest month.
Whenever the fold completes without raising (mixing a date-typed month with a
datetime-typed month raises TypeError in the comparison `month_date <
earliest_month`, modeled as `Except.error`), the earliest month is one of the
parsed record months and no parsed month compares strictly below it; the
earliest month is present whenever any record month parses; the fold always
completes when every parsed month is date-typed (as happens for string and
native-date cells); the best month is the first month whose revenue strictly
exceeds all earlier revenues and is not exceeded later, provided that revenue
beats the `-1.0` sentinel; a mixed date/datetime record list makes the fold
raise; and the three-month scenario renders the insight text naming month
2024-02 as best and 2024-01 as first record. -/
theorem claim_C10_amended :
    (∀ records st v, salesFold records = Except.ok st →
        st.earliest_month = some v →
        v ∈ salesMonthsOf records ∧
          ∀ d ∈ salesMonthsOf records, monthLt d v ≠ Except.ok true) ∧
    (∀ records st, salesFold records = Except.ok st →
        salesMonthsOf records ≠ [] → st.earliest_month ≠ none) ∧
    (∀ records, (∀ v ∈ salesMonthsOf records, v.isDate = true) →
        ∃ st, salesFold records = Except.ok st) ∧
    (∀ pre r post m st, salesMonth r = some m →
        (-1 : ℚ) < salesRevenue r →
        (∀ r2 ∈ pre, salesMonth r2 = none ∨ salesRevenue r2 < salesRevenue r) →
        (∀ r2 ∈ post, salesMonth r2 = none ∨ salesRevenue r2 ≤ salesRevenue r) →
        salesFold (pre ++ r :: post) = Except.ok st →
        st.best_month = some m ∧ st.best_revenue = salesRevenue r ∧
          st.best_margin = salesMargin r) ∧
    salesFold [salesRowDt, salesRow1] = Except.error () ∧
    build_sales_insights [salesRow1, salesRow2, salesRow3]
      = Except.ok (some ("INSIGHTS HISTÓRICOS:\n- 🏆 Mejor mes histórico: 2024-02 con ingresos de $300 y margen 100.0%.\n- 📅 Primer registro disponible: 2024-01.")) := by
  refine ⟨?p1, ?p2, ?p3, ?p4, rfl, rfl⟩
  · intro records st v h hv
    unfold salesFold at h
    constructor
    · rcases salesFoldAux_earliest_mem records initialSalesState st v h hv with h1 | h1
      · exact absurd h1 (by simp [initialSalesState])
      · exact h1
    · exact (salesFoldAux_earliest_lb records initialSalesState st v h hv).1
  · intro records st h hne
    unfold salesFold at h
    exact salesFoldAux_earliest_some records initialSalesState st h hne
  · intro records hall
    unfold salesFold
    exact salesFoldAux_ok_of_dates records initialSalesState (Or.inl rfl) hall
  · intro pre r post m st hm hgt hpre hpost h
    unfold salesFold at h
    rw [salesFoldAux_append] at h
    cases hp : salesFoldAux initialSalesState pre with
    | error u =>
      cases u
      rw [hp, except_error_bind] at h
      exact absurd h (by simp)
    | ok st1 =>
      rw [hp, except_ok_bind] at h
      obtain ⟨st2, hs, hpost2⟩ := salesFoldAux_cons_ok st1 r post st h
      have hlt : st1.best_revenue < salesRevenue r :=
        salesFoldAux_best_lt pre (salesRevenue r) initialSalesState st1 hp hpre hgt
      rcases salesStep_ok_cases st1 r st2 hs with ⟨hmn, hst2⟩ | ⟨m2, em, hm2, hse, hbr⟩
      · rw [hm] at hmn
        exact absurd hmn (by simp)
      · have hm2m : m2 = m := by
          rw [hm] at hm2
          exact Option.some.inj hm2.symm
        subst hm2m
        rcases hbr with ⟨hgt2, hst2⟩ | ⟨hle2, hst2⟩
        · subst hst2
          have hfrozen := salesFoldAux_best_frozen post _ st hpost2
            (fun r2 h2 => hpost r2 h2)
          exact ⟨hfrozen.1, hfrozen.2.1, hfrozen.2.2⟩
        · exact absurd hlt hle2

/-- Witness for C10: the best-month characterization applied to the concrete
three-month scenario, whose middle row holds the strict maximum revenue. -/
theorem claim_C10_witness :
    scenarioState.best_month = some (MonthValue.d ⟨2024, 2, 1⟩) ∧
    scenarioState.best_revenue = salesRevenue salesRow2 ∧
    scenarioState.best_margin = salesMargin salesRow2 :=
  claim_C10_amended.2.2.2.1 [salesRow1] salesRow2 [salesRow3]
    (MonthValue.d ⟨2024, 2, 1⟩) scenarioState (by decide) (by decide)
    (by decide) (by decide) (by rfl)
